import Mathlib

/-!
# Verification of the binary FBX encoder (FBXExporter.js)

Shallow embedding of the FBX 7500 binary encoder from
`src/examples/jsm/exporters/FBXExporter.js`, together with theorems that
settle the frozen claims about it.

Conventions of the embedding:

* JavaScript numbers are modelled as `ℚ` wherever the code only does exact
  arithmetic and comparisons on them (byte assembly, counters, weights),
  and as `ℝ` in the animation subsystem where the surrounding math is
  genuinely real-valued (trigonometry of the quaternion → Euler path).
* `BigInt` ids are modelled as `ℕ` (the id counter only counts up from
  1000000), and signed 64/32-bit stores truncate exactly like
  `DataView.setBigInt64` / `setInt32` do, via `mod 2^64` / `mod 2^32`.
* The byte stream is a `List ℕ` of byte values; every write helper
  truncates with `% 256` exactly as a `Uint8Array` store does.
-/

namespace FBX

/-! ## Little-endian byte encoding

`DataView.setUint32 .. true` / `setBigUint64 .. true` store the low `k`
bytes of the value, least significant first; values ≥ 2^(8k) wrap, which
`leBytes` does naturally by construction. -/

/-- `leBytes k n` is the `k`-byte little-endian encoding of `n` (wrapping
modulo `2^(8k)` like a `DataView` store). -/
def leBytes : ℕ → ℕ → List ℕ
  | 0, _ => []
  | k + 1, n => n % 256 :: leBytes k (n / 256)

/-- 4-byte little-endian store (`writeUint32`). -/
def le32 (n : ℕ) : List ℕ := leBytes 4 n

/-- 8-byte little-endian store (`writeBigUint64`). -/
def le64 (n : ℕ) : List ℕ := leBytes 8 n

/-- `writeInt32`: two's-complement store of a signed value. -/
def le32i (v : ℤ) : List ℕ := le32 (v % (2 ^ 32)).toNat

/-- `writeBigInt64`: two's-complement store of a signed 64-bit value. -/
def le64i (v : ℤ) : List ℕ := le64 (v % (2 ^ 64)).toNat

theorem leBytes_length (k n : ℕ) : (leBytes k n).length = k := by
  induction k generalizing n with
  | zero => rfl
  | succ k ih => simp [leBytes, ih]

theorem le64_length (n : ℕ) : (le64 n).length = 8 := leBytes_length 8 n

theorem le32_length (n : ℕ) : (le32 n).length = 4 := leBytes_length 4 n

/-! ## UTF-8 (the `TextEncoder` used for names and string properties) -/

/-- UTF-8 encoding of a single code point, as `TextEncoder` produces
(JavaScript strings hold UTF-16, but `TextEncoder` re-assembles surrogate
pairs, so per-code-point encoding is the same function). -/
def utf8Char (c : Char) : List ℕ :=
  let n := c.toNat
  if n < 0x80 then [n]
  else if n < 0x800 then [0xC0 + n / 64, 0x80 + n % 64]
  else if n < 0x10000 then
    [0xE0 + n / 4096, 0x80 + n / 64 % 64, 0x80 + n % 64]
  else
    [0xF0 + n / 262144, 0x80 + n / 4096 % 64, 0x80 + n / 64 % 64, 0x80 + n % 64]

/-- `this.textEncoder.encode(s)` as a byte list. -/
def strBytes (s : String) : List ℕ := (s.data.map utf8Char).flatten

/-! ## IEEE-754 encoding of the exact rationals the encoder stores

`writeFloat64` / `writeFloat32` store IEEE-754 bit patterns.  The encoder
only ever feeds them ordinary finite numbers, modelled as `ℚ`; `floatBits`
is the round-to-nearest-even conversion shared by both widths. -/

/-- Round a non-negative rational to the nearest natural, ties to even. -/
def rne (q : ℚ) : ℕ :=
  let n := q.floor.toNat
  let frac := q - (n : ℚ)
  if frac < 1 / 2 then n
  else if 1 / 2 < frac then n + 1
  else if n % 2 = 0 then n else n + 1

/-- `2^e` as a rational, for an integer exponent, avoiding `zpow` so that
the kernel can evaluate it. -/
def qpow2 (e : ℤ) : ℚ :=
  if 0 ≤ e then ((2 ^ e.toNat : ℕ) : ℚ) else 1 / ((2 ^ (-e).toNat : ℕ) : ℚ)

/-- Fuel-driven binary logarithm (structural recursion, so the kernel can
evaluate it; `fuel ≥ log₂ n` suffices). -/
def log2F : ℕ → ℕ → ℕ
  | 0, _ => 0
  | fuel + 1, n => if n < 2 then 0 else 1 + log2F fuel (n / 2)

/-- Floor of `log₂ n` for naturals. -/
def natLog2 (n : ℕ) : ℕ := log2F n n

/-- Floor of `log₂ a` for a positive rational `a`: the unique `e` with
`2^e ≤ a < 2^(e+1)` (computed from `natLog2` with a one-step fix-up). -/
def ilog2 (a : ℚ) : ℤ :=
  let cand : ℤ :=
    if 1 ≤ a then (natLog2 a.floor.toNat : ℤ)
    else - (natLog2 (1 / a).floor.toNat : ℤ) - 1
  if qpow2 (cand + 1) ≤ a then cand + 1
  else if a < qpow2 cand then cand - 1
  else cand

/-- IEEE-754 bit pattern (as a natural) of a rational, for a format with
`expBits` exponent bits and `mantBits` mantissa bits; round to nearest,
ties to even; overflow goes to infinity, tiny values to subnormals. -/
def floatBits (expBits mantBits : ℕ) (q : ℚ) : ℕ :=
  if q = 0 then 0
  else
    let sgn : ℕ := if q < 0 then 1 else 0
    let signBit := sgn * 2 ^ (expBits + mantBits)
    let a := |q|
    let bias : ℤ := 2 ^ (expBits - 1) - 1
    let e := ilog2 a
    let m := rne (a * qpow2 ((mantBits : ℤ) - e))
    let e2 := if m = 2 ^ (mantBits + 1) then e + 1 else e
    let m2 := if m = 2 ^ (mantBits + 1) then 2 ^ mantBits else m
    if e2 + bias ≥ 2 ^ expBits - 1 then
      -- overflow: infinity
      signBit + (2 ^ expBits - 1) * 2 ^ mantBits
    else if e2 + bias ≥ 1 then
      -- normal
      signBit + (e2 + bias).toNat * 2 ^ mantBits + (m2 - 2 ^ mantBits)
    else
      -- subnormal (or zero after rounding)
      signBit + rne (a * qpow2 ((mantBits : ℤ) + bias - 1))

/-- `writeFloat64` byte image of an exact rational. -/
def f64Bytes (q : ℚ) : List ℕ := leBytes 8 (floatBits 11 52 q)

/-- `writeFloat32` byte image of an exact rational. -/
def f32Bytes (q : ℚ) : List ℕ := leBytes 4 (floatBits 8 23 q)

/-- `setFloat64` of a non-numeric string coerces it to `NaN`; the canonical
NaN bit pattern `0x7FF8000000000000`, little-endian. -/
def nanBytes : List ℕ := [0, 0, 0, 0, 0, 0, 0xF8, 0x7F]

unseal Rat.mul Rat.add Rat.sub Rat.inv in
example : f64Bytes 0 = [0, 0, 0, 0, 0, 0, 0, 0] := by decide

unseal Rat.mul Rat.add Rat.sub Rat.inv in
example : f64Bytes 1 = [0, 0, 0, 0, 0, 0, 0xF0, 0x3F] := by decide

unseal Rat.mul Rat.add Rat.sub Rat.inv in
example : f64Bytes (1/2) = [0, 0, 0, 0, 0, 0, 0xE0, 0x3F] := by decide

unseal Rat.mul Rat.add Rat.sub Rat.inv in
example : f32Bytes 1 = [0, 0, 0x80, 0x3F] := by decide

/-! ## The FBX node tree

`FbxNode` is the universal container (name, typed properties, children).
Property values mirror exactly the runtime cases `writeProperty`
distinguishes: `boolean`, `string`, `FbxRaw`, `bigint`, untagged `number`,
the `Double` / `Float` / `Int32` wrapper classes, and homogeneous arrays
whose element kind is read off the first element (plain numbers, `Double`s,
`Float`s, `Int32`s, `bigint`s, or strings — the last coerced to `NaN` by
`DataView.setFloat64`).  The numeric payload type is a parameter: `ℚ` for
everything the byte writer consumes, `ℝ` in the animation subsystem. -/

/-- A property value, one constructor per runtime case of `writeProperty`. -/
inductive FbxProp (α : Type) where
  | pbool (b : Bool)
  | pstr (s : String)
  | praw (bytes : List ℕ)
  | pbig (n : ℤ)
  | pnum (v : α)
  | pdouble (v : α)
  | pfloat (v : α)
  | pint32 (n : ℤ)
  | parrNum (l : List α)
  | parrD (l : List α)
  | parrF (l : List α)
  | parrI (l : List ℤ)
  | parrL (l : List ℤ)
  | parrS (l : List String)
deriving Repr

/-- An FBX node: name, property list, child list (`class FbxNode`). -/
inductive FbxNode (α : Type) where
  | mk (name : String) (props : List (FbxProp α)) (children : List (FbxNode α))
deriving Repr

namespace FbxNode

def name {α} : FbxNode α → String
  | mk n _ _ => n

def props {α} : FbxNode α → List (FbxProp α)
  | mk _ p _ => p

def children {α} : FbxNode α → List (FbxNode α)
  | mk _ _ c => c

end FbxNode

/-- `createP(name, type, subtype, flags, values)`: builds a `P` node with
the four leading string properties and then the values (the source appends
each array element separately and a lone scalar directly; an absent
`values` argument is the empty list here). -/
def createP {α} (name ptype subtype flags : String) (values : List (FbxProp α)) :
    FbxNode α :=
  FbxNode.mk "P"
    ([FbxProp.pstr name, FbxProp.pstr ptype, FbxProp.pstr subtype, FbxProp.pstr flags]
      ++ values) []

/-- `nameWithClass(name, fbxClass)` produces `name ++ "\x00\x01" ++ fbxClass`. -/
def nameWithKlass (name klass : String) : String :=
  name ++ "\x00\x01" ++ klass

/-! ## Property serialization (`writeProperty`)

Every write in `writeProperty` is a plain append to the stream, so the
method is modelled as the pure byte image `propB`; `writeNode` below
threads the appends (and its two back-patches) through an explicit
writer state. -/

/-- Number case of `writeProperty` for an untagged JavaScript number:
`Number.isInteger(v)` and the signed-32-bit range select `I`/`L`, anything
else is a `D` double. -/
def numScalarB (v : ℚ) : List ℕ :=
  if v.den = 1 then
    if -2147483648 ≤ v.num ∧ v.num ≤ 2147483647 then 73 :: le32i v.num
    else 76 :: le64i v.num
  else 68 :: f64Bytes v

/-- The three zero 32-bit words emitted for a zero-length array. -/
def emptyArrB : List ℕ := 100 :: (le32 0 ++ le32 0 ++ le32 0)

/-- Array header: type code, element count, encoding 0, payload byte length. -/
def arrHeader (typeCode len byteSize : ℕ) : List ℕ :=
  typeCode :: (le32 len ++ le32 0 ++ le32 (len * byteSize))

/-- Byte image of one property (`writeProperty`). -/
def propB : FbxProp ℚ → List ℕ
  | .pbool b => [67, if b then 1 else 0]
  | .pstr s => 83 :: (le32 (strBytes s).length ++ strBytes s)
  | .praw bytes => 82 :: (le32 bytes.length ++ bytes.map (· % 256))
  | .pbig n => 76 :: le64i n
  | .pnum v => numScalarB v
  | .pdouble v => 68 :: f64Bytes v
  | .pfloat v => 70 :: f32Bytes v
  | .pint32 n => 73 :: le32i n
  | .parrNum l =>
    if l.length = 0 then emptyArrB
    else arrHeader 100 l.length 8 ++ (l.map f64Bytes).flatten
  | .parrD l =>
    if l.length = 0 then emptyArrB
    else arrHeader 100 l.length 8 ++ (l.map f64Bytes).flatten
  | .parrF l =>
    if l.length = 0 then emptyArrB
    else arrHeader 102 l.length 4 ++ (l.map f32Bytes).flatten
  | .parrI l =>
    if l.length = 0 then emptyArrB
    else arrHeader 105 l.length 4 ++ (l.map le32i).flatten
  | .parrL l =>
    if l.length = 0 then emptyArrB
    else arrHeader 108 l.length 8 ++ (l.map le64i).flatten
  | .parrS l =>
    -- strings are not one of the recognized element kinds, so the array
    -- falls through to the default `d` double array; `setFloat64` coerces
    -- each (non-numeric) name string to NaN
    if l.length = 0 then emptyArrB
    else arrHeader 100 l.length 8 ++ (l.map fun _ => nanBytes).flatten

/-- Byte image of a property list, in order. -/
def propsB (ps : List (FbxProp ℚ)) : List ℕ := (ps.map propB).flatten

/-! ## The binary writer (`BinaryWriter`)

Only the written region matters (`getBlob` slices the buffer at
`this.offset`), so the state is the byte list written so far; `offset`
is its length.  `writeNode` back-patches `propertyListLen` and
`endOffset` with `DataView.setBigUint64`, modelled by `setAt`. -/

/-- Writer state: the bytes written so far. -/
structure Writer where
  bytes : List ℕ
deriving Repr

/-- Append bytes at the current offset. -/
def Writer.put (w : Writer) (bs : List ℕ) : Writer := ⟨w.bytes ++ bs⟩

/-- `DataView` store of `repl` at absolute position `pos` (in-bounds
overwrite; callers only patch inside the already-written region). -/
def setAt (bytes : List ℕ) (pos : ℕ) (repl : List ℕ) : List ℕ :=
  bytes.take pos ++ repl ++ bytes.drop (pos + repl.length)

/-- The forced-sentinel names (`AnimationStack`, `AnimationLayer`). -/
def forcedSentinel (name : String) : Bool :=
  name = "AnimationStack" || name = "AnimationLayer"

/-- The 25-byte null record (three 8-byte zeros and one zero byte). -/
def nullRecord : List ℕ := le64 0 ++ le64 0 ++ le64 0 ++ [0]

mutual

/-- `writeNode(node)`: writes the 7500 node frame with placeholder
`endOffset`/`propertyListLen`, the name, the properties, then (children
and) the null record when `children.length > 0` or the name is forced,
and finally back-patches the two length fields. -/
def writeNode (w : Writer) (n : FbxNode ℚ) : Writer :=
  match n with
  | .mk name ps cs =>
    let start := w.bytes.length
    let w1 := w.put (le64 0)
    let w2 := w1.put (le64 ps.length)
    let w3 := w2.put (le64 0)
    let nameB := strBytes name
    let w4 := w3.put [nameB.length % 256]
    let w5 := if nameB.length > 0 then w4.put nameB else w4
    let w6 := w5.put (propsB ps)
    let currentPos := w6.bytes.length
    let propLen := currentPos - start - (25 + nameB.length)
    let w7 : Writer := ⟨setAt w6.bytes (start + 16) (le64 propLen)⟩
    let w8 :=
      if cs.length > 0 ∨ forcedSentinel name then
        (writeNodes w7 cs).put nullRecord
      else w7
    ⟨setAt w8.bytes start (le64 w8.bytes.length)⟩

/-- The `for (let child of node.children) this.writeNode(child)` loop. -/
def writeNodes (w : Writer) : List (FbxNode ℚ) → Writer
  | [] => w
  | c :: cs => writeNodes (writeNode w c) cs

end

mutual

/-- Pure byte image of a node written at absolute offset `start`
(what `writeNode` appends, with both back-patches already applied). -/
def nodeBytes (start : ℕ) (n : FbxNode ℚ) : List ℕ :=
  match n with
  | .mk name ps cs =>
    let nameB := strBytes name
    let pb := propsB ps
    let body :=
      if cs.length > 0 ∨ forcedSentinel name then
        nodesBytes (start + 25 + nameB.length + pb.length) cs ++ nullRecord
      else []
    le64 (start + 25 + nameB.length + pb.length + body.length) ++
      le64 ps.length ++ le64 pb.length ++ [nameB.length % 256] ++ nameB ++ pb ++ body

/-- Pure byte image of a sibling list written back-to-back from `start`. -/
def nodesBytes (start : ℕ) : List (FbxNode ℚ) → List ℕ
  | [] => []
  | c :: cs =>
    let b := nodeBytes start c
    b ++ nodesBytes (start + b.length) cs

end

theorem Writer.put_bytes (w : Writer) (bs : List ℕ) :
    (w.put bs).bytes = w.bytes ++ bs := rfl

/-- An in-place store over a decomposed buffer: replacing a segment of the
right length at its own position splices in the replacement.  Stated with
hypothesis-style decomposition so the buffer and position in a goal need
not match any particular shape syntactically. -/
theorem setAt_split (bytes : List ℕ) (pos : ℕ) (p old s repl : List ℕ)
    (hb : bytes = p ++ old ++ s) (hp : pos = p.length)
    (hlen : old.length = repl.length) :
    setAt bytes pos repl = p ++ repl ++ s := by
  subst hb hp
  unfold setAt
  have htake : (p ++ old ++ s).take p.length = p := by
    rw [List.append_assoc]
    exact List.take_left p (old ++ s)
  have hdrop : (p ++ old ++ s).drop (p.length + repl.length) = s := by
    have hlen2 : (p ++ old).length = p.length + repl.length := by simp [hlen]
    rw [← hlen2, List.drop_left]
  rw [htake, hdrop, List.append_assoc]

/-- The `propertyListLen` back-patch: store at offset 16 of the node frame,
phrased in the writer's right-associated buffer shape. -/
theorem setAt_prop_patch (A : List ℕ) (np : ℕ) (tail : List ℕ) (v : ℕ) :
    setAt (A ++ (le64 0 ++ (le64 np ++ (le64 0 ++ tail)))) (A.length + 16) (le64 v)
      = A ++ (le64 0 ++ (le64 np ++ (le64 v ++ tail))) := by
  rw [setAt_split (A ++ (le64 0 ++ (le64 np ++ (le64 0 ++ tail)))) (A.length + 16)
    (A ++ le64 0 ++ le64 np) (le64 0) tail (le64 v)
    (by simp) (by simp [le64_length]) (by simp [le64_length])]
  simp

/-- The `endOffset` back-patch: store at the node's start offset. -/
theorem setAt_end_patch (A : List ℕ) (tail : List ℕ) (v : ℕ) :
    setAt (A ++ (le64 0 ++ tail)) A.length (le64 v) = A ++ (le64 v ++ tail) := by
  rw [setAt_split (A ++ (le64 0 ++ tail)) A.length A (le64 0) tail (le64 v)
    (by simp) (by simp) (by simp [le64_length])]
  simp

/-- The conditional `if (nameBytes.length > 0) this.writeBytes(nameBytes)`
appends the name bytes in both cases (the skipped write is the empty
append). -/
theorem put_name (w4 : Writer) (nb : List ℕ) :
    (if nb.length > 0 then w4.put nb else w4) = w4.put nb := by
  by_cases hn : nb.length > 0
  · rw [if_pos hn]
  · rw [if_neg hn]
    have h0 : nb = [] := List.length_eq_zero.mp (by omega)
    cases w4
    simp [Writer.put, h0]

set_option maxHeartbeats 1000000

mutual

/-- The stateful `writeNode` appends exactly the pure byte image of the
node at the current offset (both back-patches included). -/
theorem writeNode_eq (w : Writer) (n : FbxNode ℚ) :
    writeNode w n = ⟨w.bytes ++ nodeBytes w.bytes.length n⟩ := by
  match n with
  | .mk name ps cs =>
    simp only [writeNode, nodeBytes]
    rw [put_name]
    simp only [Writer.put]
    have hbuf : ∀ X : ℕ, (w.bytes ++ (le64 0 ++ (le64 ps.length ++ (le64 X ++
        (((strBytes name).length % 256 :: strBytes name) ++ propsB ps))))).length
        = w.bytes.length + 25 + (strBytes name).length + (propsB ps).length := by
      intro X
      simp [le64_length]
      omega
    have hsub : w.bytes.length + 25 + (strBytes name).length + (propsB ps).length -
        w.bytes.length - (25 + (strBytes name).length) = (propsB ps).length := by omega
    by_cases hc : cs.length > 0 ∨ forcedSentinel name = true
    · rw [if_pos hc, if_pos hc]
      simp only [List.append_assoc, List.singleton_append]
      rw [setAt_prop_patch]
      simp only [hbuf, hsub]
      rw [writeNodes_eq]
      simp only [Writer.put, List.append_assoc]
      rw [setAt_end_patch]
      simp only [hbuf]
      have hbig : (w.bytes ++ (le64 0 ++ (le64 ps.length ++ (le64 (propsB ps).length ++
          (((strBytes name).length % 256 :: strBytes name) ++ (propsB ps ++
            (nodesBytes (w.bytes.length + 25 + (strBytes name).length + (propsB ps).length) cs ++
              nullRecord))))))).length
          = w.bytes.length + 25 + (strBytes name).length + (propsB ps).length +
            (nodesBytes (w.bytes.length + 25 + (strBytes name).length + (propsB ps).length) cs ++
              nullRecord).length := by
        simp [le64_length, nullRecord]
        omega
      simp only [hbig]
    · rw [if_neg hc, if_neg hc]
      simp only [List.append_assoc, List.singleton_append]
      rw [setAt_prop_patch]
      simp only [hbuf, hsub]
      rw [setAt_end_patch]
      simp

/-- The child loop appends the pure images back-to-back. -/
theorem writeNodes_eq (w : Writer) (l : List (FbxNode ℚ)) :
    writeNodes w l = ⟨w.bytes ++ nodesBytes w.bytes.length l⟩ := by
  match l with
  | [] =>
    rw [writeNodes, nodesBytes]
    cases w
    simp
  | c :: cs =>
    rw [writeNodes, nodesBytes]
    rw [writeNode_eq w c]
    rw [writeNodes_eq ⟨w.bytes ++ nodeBytes w.bytes.length c⟩ cs]
    simp

end

set_option maxHeartbeats 200000

end FBX

namespace FBX

/-! ## File-level framing (`parse`, lines 900–934)

After building the node trees, `parse` writes: the magic header, `0x1A 0x00`,
the 4-byte version 7500, the children of the implicit root (`FileId`,
`CreationTime`, `Creator`, then the seven top-level sections), a terminal
25-byte null record, the 16-byte file id, 4 zero bytes, zero padding to a
16-byte boundary (never zero bytes of padding), the version again, 120
zero bytes, and the closing magic. -/

/-- `MAGIC_HEADER` (21 characters, the last being `\x00`). -/
def magicHeader : String := "Kaydara FBX Binary  \x00"

/-- `FBX_VERSION`. -/
def fbxVersion : ℕ := 7500

/-- The magic header bytes: `writeUint8(MAGIC_HEADER.charCodeAt(i))` for
each of the 21 characters. -/
def magicBytes : List ℕ := magicHeader.data.map (fun c => c.toNat % 256)

/-- `_FILE_ID` (16 bytes). -/
def fileIdBytes : List ℕ :=
  [0x28, 0xb3, 0x2a, 0xeb, 0xb6, 0x24, 0xcc, 0xc2,
   0xbf, 0xc8, 0xb0, 0x2a, 0xa9, 0x2b, 0xfc, 0xf1]

/-- `_TIME_ID`. -/
def timeId : String := "1970-01-01 10:00:00:000"

/-- The `footerId` local (16 bytes, line 921). -/
def footerId : List ℕ :=
  [0xFA, 0xBC, 0xAB, 0x09, 0xD0, 0xC8, 0xD4, 0x66,
   0xB1, 0x76, 0xFB, 0x83, 0x1C, 0xF7, 0x26, 0x7E]

/-- The `footerMagic` local (16 bytes, line 931). -/
def footerMagic : List ℕ :=
  [0xF8, 0x5A, 0x8C, 0x6A, 0xDE, 0xF5, 0xD9, 0x7E,
   0xEC, 0xE9, 0x0C, 0xE3, 0x75, 0x8F, 0x29, 0x0B]

/-- The padding expression of line 925,
`((writer.offset + 15) & ~15) - writer.offset || 16`, as the signed value
JavaScript computes: `&` coerces its operands through `ToInt32`, so
`(offset + 15) & ~15` is the low 32 bits of `offset + 15` with the low 4
bits cleared, reinterpreted as a signed 32-bit value; the subtraction is
then exact `Number` arithmetic (offsets are far below `2^53`), and
`|| 16` replaces only an exact zero — a negative difference (which occurs
once `offset + 15` reaches `2^31`) is truthy and kept. -/
def padLenJS (o : ℕ) : ℤ :=
  let masked : ℕ := (o + 15) % 2 ^ 32 / 16 * 16
  let signed : ℤ := if masked < 2 ^ 31 then (masked : ℤ) else (masked : ℤ) - 2 ^ 32
  if signed - (o : ℤ) = 0 then 16 else signed - (o : ℤ)

/-- The number of zero padding bytes the loop
`for (let i = 0; i < p; i++) writer.writeUint8(0)` actually writes: `p`
when positive, none when `p` is negative. -/
def padCount (o : ℕ) : ℕ := (padLenJS o).toNat

/-- The implicit root's children: `FileId`, `CreationTime`, `Creator`
followed by the seven top-level section nodes (lines 908–913). -/
def implicitRootChildren (roots : List (FbxNode ℚ)) : List (FbxNode ℚ) :=
  FbxNode.mk "FileId" [FbxProp.praw fileIdBytes] [] ::
  FbxNode.mk "CreationTime" [FbxProp.pstr timeId] [] ::
  FbxNode.mk "Creator" [FbxProp.pstr "Three.js FBX Exporter"] [] ::
  roots

/-- The whole byte stream `parse` produces after the node trees are built
(lines 901–934), as a function of the top-level section nodes. -/
def parseFrame (roots : List (FbxNode ℚ)) : List ℕ :=
  let w : Writer := ⟨[]⟩
  let w := w.put magicBytes
  let w := w.put [26, 0]
  let w := w.put (le32 fbxVersion)
  let w := writeNodes w (implicitRootChildren roots)
  let w := w.put nullRecord
  let w := w.put footerId
  let w := w.put (List.replicate 4 0)
  let w := w.put (List.replicate (padCount w.bytes.length) 0)
  let w := w.put (le32i (fbxVersion : ℤ))
  let w := w.put (List.replicate 120 0)
  let w := w.put footerMagic
  w.bytes

/-- Byte offset at which the zero padding starts (after the terminal null
record, the 16-byte file id and the 4 zero bytes). -/
def offsetBeforePad (roots : List (FbxNode ℚ)) : ℕ :=
  27 + (nodesBytes 27 (implicitRootChildren roots)).length + 25 + 16 + 4

/-- Byte offset of the second version slot. -/
def secondVersionOffset (roots : List (FbxNode ℚ)) : ℕ :=
  offsetBeforePad roots + padCount (offsetBeforePad roots)

/-- Closed-form decomposition of `parseFrame`. -/
theorem parseFrame_eq (roots : List (FbxNode ℚ)) :
    parseFrame roots =
      magicBytes ++ [26, 0] ++ le32 fbxVersion ++
      nodesBytes 27 (implicitRootChildren roots) ++ nullRecord ++ footerId ++
      List.replicate 4 0 ++ List.replicate (padCount (offsetBeforePad roots)) 0 ++
      le32i (fbxVersion : ℤ) ++ List.replicate 120 0 ++ footerMagic := by
  simp only [parseFrame]
  rw [writeNodes_eq]
  simp only [Writer.put]
  have h27 : (([] : List ℕ) ++ magicBytes ++ [26, 0] ++
      le32 fbxVersion).length = 27 := by
    simp [magicBytes, magicHeader, le32_length]
  rw [h27]
  have hoff : (([] : List ℕ) ++ magicBytes ++ [26, 0] ++
      le32 fbxVersion ++ nodesBytes 27 (implicitRootChildren roots) ++ nullRecord ++
      footerId ++ List.replicate 4 0).length = offsetBeforePad roots := by
    simp [magicBytes, magicHeader, le32_length, nullRecord, le64_length, footerId,
      offsetBeforePad]
    omega
  rw [hoff]
  simp

end FBX

namespace FBX

/-- Below the `ToInt32` wrap (`offset + 15 < 2^31`) the written padding is
16 when the offset is already 16-aligned, otherwise the distance to the
next multiple of 16. -/
theorem padCount_spec (o : ℕ) (h : o + 15 < 2 ^ 31) :
    padCount o = if o % 16 = 0 then 16 else 16 - o % 16 := by
  simp only [padCount, padLenJS]
  have h1 : (o + 15) % 2 ^ 32 = o + 15 := Nat.mod_eq_of_lt (by omega)
  rw [h1, if_pos (show (o + 15) / 16 * 16 < 2 ^ 31 by omega)]
  by_cases h0 : o % 16 = 0
  · have he : (o + 15) / 16 * 16 = o := by omega
    rw [he]
    simp [h0]
  · have he : (o + 15) / 16 * 16 = o + (16 - o % 16) := by omega
    rw [he, if_neg (by push_cast; omega), if_neg h0]
    push_cast
    omega

/-- C5: For every scene and every combination of options, the byte buffer
returned by `parse` begins with the 21-byte magic string
`Kaydara FBX Binary  \x00` followed by `0x1A 0x00` and the 4-byte
little-endian version 7500, and ends with the fixed 16-byte closing magic
`F8 5A 8C 6A DE F5 D9 7E EC E9 0C E3 75 8F 29 0B`.  (The scene and the
options only determine the top-level section nodes, over which this is
universally quantified.) -/
theorem claim_C5 (roots : List (FbxNode ℚ)) :
    ∃ mid : List ℕ,
      parseFrame roots = magicBytes ++ [0x1A, 0x00] ++ le32 7500 ++ mid ++ footerMagic
      ∧ magicBytes = [75, 97, 121, 100, 97, 114, 97, 32, 70, 66, 88, 32,
          66, 105, 110, 97, 114, 121, 32, 32, 0]
      ∧ le32 7500 = [0x4C, 0x1D, 0x00, 0x00]
      ∧ footerMagic = [0xF8, 0x5A, 0x8C, 0x6A, 0xDE, 0xF5, 0xD9, 0x7E,
          0xEC, 0xE9, 0x0C, 0xE3, 0x75, 0x8F, 0x29, 0x0B] := by
  refine ⟨nodesBytes 27 (implicitRootChildren roots) ++ nullRecord ++ footerId ++
    List.replicate 4 0 ++ List.replicate (padCount (offsetBeforePad roots)) 0 ++
    le32i (fbxVersion : ℤ) ++ List.replicate 120 0, ?_, by decide, by decide, rfl⟩
  rw [parseFrame_eq]
  simp [fbxVersion]

/-- C8 (amended): for every output whose byte offset before the padding
(after the terminal null record, the 16-byte file id and the 4 zero
bytes) satisfies `offset + 15 < 2^31` — every realistically sized file —
the zero padding makes the second version slot start at an offset that is
a multiple of 16; when that offset is already 16-aligned, exactly 16
padding bytes are written, and the padding length is never zero.  Past
that bound the `ToInt32` coercion inside `(offset + 15) & ~15` wraps, the
loop bound goes negative and no padding is written (see the
counterexample). -/
theorem claim_C8 (roots : List (FbxNode ℚ))
    (hbound : offsetBeforePad roots + 15 < 2 ^ 31) :
    ∃ pre suf : List ℕ,
      parseFrame roots = pre ++ le32i (fbxVersion : ℤ) ++ suf
      ∧ pre.length = secondVersionOffset roots
      ∧ secondVersionOffset roots % 16 = 0
      ∧ padCount (offsetBeforePad roots) ≠ 0
      ∧ padCount (offsetBeforePad roots) =
          (if offsetBeforePad roots % 16 = 0 then 16
           else 16 - offsetBeforePad roots % 16) := by
  refine ⟨magicBytes ++ [26, 0] ++ le32 fbxVersion ++
      nodesBytes 27 (implicitRootChildren roots) ++ nullRecord ++ footerId ++
      List.replicate 4 0 ++ List.replicate (padCount (offsetBeforePad roots)) 0,
    List.replicate 120 0 ++ footerMagic, ?_, ?_, ?_, ?_, padCount_spec _ hbound⟩
  · rw [parseFrame_eq]
    simp
  · have hm : magicBytes.length = 21 := by decide
    simp [hm, le32_length, nullRecord, le64_length, footerId,
      secondVersionOffset, offsetBeforePad]
    omega
  · have h := padCount_spec (offsetBeforePad roots) hbound
    unfold secondVersionOffset
    rcases Nat.eq_zero_or_pos (offsetBeforePad roots % 16) with h0 | h0
    · rw [h, if_pos h0]
      omega
    · rw [h, if_neg (by omega)]
      omega
  · rw [padCount_spec _ hbound]
    by_cases h0 : offsetBeforePad roots % 16 = 0
    · simp [h0]
    · simp only [h0, if_false]
      omega

end FBX

namespace FBX

/-- Length of a node's byte image, split by the sentinel condition. -/
theorem nodeBytes_length (start : ℕ) (name : String) (ps : List (FbxProp ℚ))
    (cs : List (FbxNode ℚ)) :
    (nodeBytes start (.mk name ps cs)).length =
      25 + (strBytes name).length + (propsB ps).length +
      (if cs.length > 0 ∨ forcedSentinel name = true then
        (nodesBytes (start + 25 + (strBytes name).length + (propsB ps).length) cs).length + 25
       else 0) := by
  rw [nodeBytes]
  by_cases hc : cs.length > 0 ∨ forcedSentinel name = true
  · simp only [hc, if_true]
    simp [le64_length, nullRecord]
    omega
  · simp only [hc, if_false]
    simp [le64_length]
    omega

/-- A single extra section node carrying a 2 147 483 369-byte raw payload
(an embedded binary blob), which drives the pre-padding offset to exactly
`2^31 + 1`. -/
def bigRoots : List (FbxNode ℚ) :=
  [FbxNode.mk "Big" [FbxProp.praw (List.replicate 2147483369 0)] []]

/-- A raw property serializes to a 1-byte tag, a 4-byte length and the
payload. -/
theorem propB_praw_length (l : List ℕ) :
    (propB (FbxProp.praw l)).length = 5 + l.length := by
  simp only [propB, List.length_cons, List.length_append, le32_length, List.length_map]
  omega

/-- The empty sibling list contributes no bytes. -/
theorem nodesBytes_nil_len (s : ℕ) :
    (nodesBytes s ([] : List (FbxNode ℚ))).length = 0 := by
  rw [nodesBytes]
  rfl

/-- On `bigRoots` the padding starts at byte `2^31 + 1`. -/
theorem offsetBeforePad_bigRoots : offsetBeforePad bigRoots = 2 ^ 31 + 1 := by
  have hfile : ∀ s : ℕ,
      (nodeBytes s (FbxNode.mk "FileId" [FbxProp.praw fileIdBytes] [])).length = 52 := by
    intro s
    rw [nodeBytes_length, if_neg (by decide)]
    decide
  have hctime : ∀ s : ℕ,
      (nodeBytes s (FbxNode.mk "CreationTime" [FbxProp.pstr timeId] [])).length = 65 := by
    intro s
    rw [nodeBytes_length, if_neg (by decide)]
    decide
  have hcreator : ∀ s : ℕ,
      (nodeBytes s (FbxNode.mk "Creator"
        [FbxProp.pstr ("Three.js FBX Exporter")] [])).length = 58 := by
    intro s
    rw [nodeBytes_length, if_neg (by decide)]
    decide
  have hbig : ∀ s : ℕ,
      (nodeBytes s (FbxNode.mk "Big"
        [FbxProp.praw (List.replicate 2147483369 0)] [])).length = 2147483402 := by
    intro s
    rw [nodeBytes_length, if_neg (by decide)]
    have hp : propsB [FbxProp.praw (List.replicate 2147483369 0)]
        = propB (FbxProp.praw (List.replicate 2147483369 0)) ++ [] := rfl
    rw [hp, List.length_append, propB_praw_length, List.length_replicate,
      List.length_nil]
    have hs : (strBytes ("Big" : String)).length = 3 := by decide
    rw [hs]
  have h1 : ∀ s : ℕ, (nodesBytes s
      [FbxNode.mk "Big" [FbxProp.praw (List.replicate 2147483369 0)] []]).length
      = 2147483402 := by
    intro s
    rw [nodesBytes, List.length_append, hbig, nodesBytes_nil_len]
  have h2 : ∀ s : ℕ, (nodesBytes s
      [FbxNode.mk "Creator" [FbxProp.pstr ("Three.js FBX Exporter")] [],
       FbxNode.mk "Big" [FbxProp.praw (List.replicate 2147483369 0)] []]).length
      = 2147483460 := by
    intro s
    rw [nodesBytes, List.length_append, hcreator, h1]
  have h3 : ∀ s : ℕ, (nodesBytes s
      [FbxNode.mk "CreationTime" [FbxProp.pstr timeId] [],
       FbxNode.mk "Creator" [FbxProp.pstr ("Three.js FBX Exporter")] [],
       FbxNode.mk "Big" [FbxProp.praw (List.replicate 2147483369 0)] []]).length
      = 2147483525 := by
    intro s
    rw [nodesBytes, List.length_append, hctime, h2]
  have h4 : ∀ s : ℕ, (nodesBytes s
      (implicitRootChildren bigRoots)).length = 2147483577 := by
    intro s
    rw [implicitRootChildren, bigRoots]
    rw [nodesBytes, List.length_append, hfile, h3]
  rw [offsetBeforePad, h4]
  norm_num

/-- C8 counterexample: on `bigRoots` the pre-padding offset is `2^31 + 1`;
inside `((offset + 15) & ~15) - offset` the `ToInt32` coercion wraps, the
difference is a large negative number (truthy, so `|| 16` does not fire),
the JS loop bound is negative and zero padding bytes are written; the
second version slot then sits at offset `2^31 + 1`, not a multiple of 16 —
refuting both the "never zero" and the alignment parts of the original
claim. -/
theorem claim_C8_counterexample :
    offsetBeforePad bigRoots = 2 ^ 31 + 1
    ∧ padCount (offsetBeforePad bigRoots) = 0
    ∧ secondVersionOffset bigRoots % 16 ≠ 0 := by
  refine ⟨offsetBeforePad_bigRoots, ?_, ?_⟩
  · rw [offsetBeforePad_bigRoots]
    decide
  · rw [secondVersionOffset, offsetBeforePad_bigRoots]
    decide

set_option maxRecDepth 100000 in
/-- C8 witness: the empty section list satisfies the bound
`offset + 15 < 2^31` and the theorem's conclusion at it. -/
theorem claim_C8_witness :
    offsetBeforePad ([] : List (FbxNode ℚ)) + 15 < 2 ^ 31
    ∧ ∃ pre suf : List ℕ,
        parseFrame [] = pre ++ le32i (fbxVersion : ℤ) ++ suf
        ∧ pre.length = secondVersionOffset []
        ∧ secondVersionOffset [] % 16 = 0
        ∧ padCount (offsetBeforePad ([] : List (FbxNode ℚ))) ≠ 0
        ∧ padCount (offsetBeforePad ([] : List (FbxNode ℚ))) =
            (if offsetBeforePad ([] : List (FbxNode ℚ)) % 16 = 0 then 16
             else 16 - offsetBeforePad ([] : List (FbxNode ℚ)) % 16) :=
  ⟨by decide, claim_C8 [] (by decide)⟩

/-- Structural decomposition of a node's byte image: the back-patched
`endOffset` is the absolute offset one past the node's last byte, the
back-patched `propertyListLen` is the byte length of the property list,
and the trailing null record is present exactly under the sentinel
condition. -/
theorem nodeBytes_decomp (start : ℕ) (name : String) (ps : List (FbxProp ℚ))
    (cs : List (FbxNode ℚ)) :
    nodeBytes start (.mk name ps cs) =
      le64 (start + (nodeBytes start (.mk name ps cs)).length) ++ le64 ps.length ++
      le64 (propsB ps).length ++ [(strBytes name).length % 256] ++
      strBytes name ++ propsB ps ++
      (if cs.length > 0 ∨ forcedSentinel name = true then
        nodesBytes (start + 25 + (strBytes name).length + (propsB ps).length) cs ++
          nullRecord
       else []) := by
  rw [nodeBytes_length]
  conv_lhs => rw [nodeBytes]
  by_cases hc : cs.length > 0 ∨ forcedSentinel name = true
  · simp only [hc, if_true]
    have : start + 25 + (strBytes name).length + (propsB ps).length +
        (nodesBytes (start + 25 + (strBytes name).length + (propsB ps).length) cs ++
          nullRecord).length
        = start + (25 + (strBytes name).length + (propsB ps).length +
          ((nodesBytes (start + 25 + (strBytes name).length + (propsB ps).length) cs).length
            + 25)) := by
      simp [nullRecord, le64_length]
      omega
    rw [this]
  · simp only [hc, if_false]
    have : start + 25 + (strBytes name).length + (propsB ps).length +
        List.length ([] : List ℕ)
        = start + (25 + (strBytes name).length + (propsB ps).length + 0) := by
      simp
      omega
    rw [this]

end FBX

namespace FBX

/-- C4: For every node in the output stream, the back-patched `endOffset`
equals the absolute byte offset immediately after the node's last byte
(null record included when present); `propertyListLen` equals the byte
count between the end of the name field and the start of the children
(the property-list bytes sit exactly there); and the 25-byte null record
is emitted if and only if the node has at least one child or its name is
`AnimationStack` or `AnimationLayer`.  The first conjunct ties the
back-patching writer to the byte image the remaining conjuncts inspect. -/
theorem claim_C4 (w : Writer) (start : ℕ) (name : String) (ps : List (FbxProp ℚ))
    (cs : List (FbxNode ℚ)) :
    (writeNode w (.mk name ps cs)).bytes
        = w.bytes ++ nodeBytes w.bytes.length (.mk name ps cs)
    ∧ (nodeBytes start (.mk name ps cs)).take 8
        = le64 (start + (nodeBytes start (.mk name ps cs)).length)
    ∧ ((nodeBytes start (.mk name ps cs)).drop 16).take 8 = le64 (propsB ps).length
    ∧ ((nodeBytes start (.mk name ps cs)).drop (25 + (strBytes name).length)).take
        (propsB ps).length = propsB ps
    ∧ (nodeBytes start (.mk name ps cs) =
        le64 (start + (nodeBytes start (.mk name ps cs)).length) ++ le64 ps.length ++
        le64 (propsB ps).length ++ [(strBytes name).length % 256] ++ strBytes name ++
        propsB ps ++
        nodesBytes (start + 25 + (strBytes name).length + (propsB ps).length) cs ++
        nullRecord
       ↔ (cs.length > 0 ∨ forcedSentinel name = true)) := by
  refine ⟨by rw [writeNode_eq], ?_, ?_, ?_, ?_⟩
  · conv_lhs => rw [nodeBytes_decomp]
    simp only [List.append_assoc]
    exact List.take_left' (le64_length _)
  · conv_lhs => rw [nodeBytes_decomp]
    simp only [List.append_assoc]
    rw [← List.append_assoc (le64 (start + (nodeBytes start (.mk name ps cs)).length))]
    rw [List.drop_left' (by simp [le64_length])]
    exact List.take_left' (le64_length _)
  · conv_lhs => rw [nodeBytes_decomp]
    simp only [List.append_assoc]
    rw [← List.append_assoc, ← List.append_assoc, ← List.append_assoc,
      ← List.append_assoc]
    rw [List.drop_left' (by simp [le64_length]; omega)]
    exact List.take_left' rfl
  · constructor
    · intro heq
      by_contra hc
      have hcs : cs = [] := by
        rcases cs with _ | ⟨c, cs'⟩
        · rfl
        · exact absurd (Or.inl (by simp)) hc
      have hlen := congrArg List.length heq
      rw [nodeBytes_length] at hlen
      simp only [hc, if_false] at hlen
      subst hcs
      simp [nodeBytes_length, hc, le64_length, nullRecord, nodesBytes] at hlen
      omega
    · intro hc
      conv_lhs => rw [nodeBytes_decomp]
      simp only [hc, if_true]
      simp [List.append_assoc]

end FBX

namespace FBX

/-! ## Node builders used by `parse`

Translations of the tree-building helpers the top of `parse` composes:
`_generateHeader`, `_generateGlobalSettings`, `_generateDocument`,
`_generateDefinitions`, the per-object `Model` node (lines 667–699), the
rotation-order map and the module-level id counter. -/

/-- The module-level `let idCounter = 1000000n; function generateId()`
(lines 108–114): `idCounter++` returns the current value and advances the
process-wide state, threaded here explicitly. -/
def generateId (c : ℕ) : ℕ × ℕ := (c, c + 1)

/-- The value `idCounter` starts with when the module is loaded. -/
def idCounterInit : ℕ := 1000000

/-- `getRotationOrder` (lines 131–142); the `|| 0` default maps unknown
orders (and `XYZ` itself) to 0. -/
def getRotationOrder (order : String) : ℕ :=
  if order = "XYZ" then 0
  else if order = "XZY" then 1
  else if order = "YXZ" then 2
  else if order = "YZX" then 3
  else if order = "ZXY" then 4
  else if order = "ZYX" then 5
  else 0

/-- The `Model` node emitted for one collected object (lines 667–699).
The rotation is passed already converted to degrees (`THREE.MathUtils.radToDeg`
is the external library's exact `r * 180 / π`; the caller below only uses
rotation 0, where the conversion returns 0). -/
def modelNode (mid : ℕ) (objName typ : String) (t rDeg s : ℚ × ℚ × ℚ)
    (rotOrder : ℕ) (scale : ℚ) (isBone : Bool) : FbxNode ℚ :=
  let p70 := FbxNode.mk "Properties70" []
    ([createP "Lcl Translation" "Lcl Translation" "" "A"
        [FbxProp.pdouble (t.1 * scale), FbxProp.pdouble (t.2.1 * scale),
         FbxProp.pdouble (t.2.2 * scale)],
      createP "Lcl Rotation" "Lcl Rotation" "" "A"
        [FbxProp.pdouble rDeg.1, FbxProp.pdouble rDeg.2.1, FbxProp.pdouble rDeg.2.2],
      createP "Lcl Scaling" "Lcl Scaling" "" "A"
        [FbxProp.pdouble s.1, FbxProp.pdouble s.2.1, FbxProp.pdouble s.2.2],
      createP "RotationOrder" "enum" "" "" [FbxProp.pnum (rotOrder : ℚ)],
      createP "InheritType" "enum" "" "" [FbxProp.pnum 1]]
     ++ (if isBone then
          [createP "RotationActive" "bool" "" "" [FbxProp.pnum 1],
           createP "SegmentScaleCompensate" "bool" "" "" [FbxProp.pnum 1]]
         else []))
  FbxNode.mk "Model"
    [FbxProp.pbig (mid : ℤ), FbxProp.pstr (nameWithKlass objName "Model"),
     FbxProp.pstr typ]
    [FbxNode.mk "Version" [FbxProp.pnum 232] [],
     p70,
     FbxNode.mk "Shading" [FbxProp.pbool true] [],
     FbxNode.mk "Culling" [FbxProp.pstr "CullingOff"] []]

/-- `_generateHeader` (lines 938–956). -/
def generateHeaderNode : FbxNode ℚ :=
  FbxNode.mk "FBXHeaderExtension" []
    [FbxNode.mk "FBXHeaderVersion" [FbxProp.pnum 1003] [],
     FbxNode.mk "FBXVersion" [FbxProp.pnum 7500] [],
     FbxNode.mk "CreationTimeStamp" []
       [FbxNode.mk "Version" [FbxProp.pnum 1000] [],
        FbxNode.mk "Year" [FbxProp.pnum 2025] [],
        FbxNode.mk "Month" [FbxProp.pnum 1] [],
        FbxNode.mk "Day" [FbxProp.pnum 1] []],
     FbxNode.mk "SceneInfo"
       [FbxProp.pstr (nameWithKlass "GlobalInfo" "SceneInfo"), FbxProp.pstr "UserData"]
       [FbxNode.mk "Type" [FbxProp.pstr "UserData"] [],
        FbxNode.mk "Version" [FbxProp.pnum 100] []]]

/-- `_generateGlobalSettings` (lines 958–971). -/
def generateGlobalSettingsNode : FbxNode ℚ :=
  FbxNode.mk "GlobalSettings" []
    [FbxNode.mk "Version" [FbxProp.pnum 1000] [],
     FbxNode.mk "Properties70" []
       [createP "UpAxis" "int" "Integer" "" [FbxProp.pnum 1],
        createP "UpAxisSign" "int" "Integer" "" [FbxProp.pnum 1],
        createP "FrontAxis" "int" "Integer" "" [FbxProp.pnum 2],
        createP "FrontAxisSign" "int" "Integer" "" [FbxProp.pnum 1],
        createP "CoordAxis" "int" "Integer" "" [FbxProp.pnum 0],
        createP "CoordAxisSign" "int" "Integer" "" [FbxProp.pnum 1],
        createP "UnitScaleFactor" "double" "Number" "" [FbxProp.pdouble 1]]]

/-- `_generateDocument` (lines 974–986), as a function of the freshly
allocated document id, the animation stack ids and the clip names. -/
def documentNode (docId : ℕ) (stackIds : List ℕ) (clipNames : List String) :
    FbxNode ℚ :=
  let props := FbxNode.mk "Properties70" []
    ([createP "SourceObject" "object" "" "" []]
     ++ (if stackIds.length > 0 ∧ clipNames.length > 0 then
          [createP "ActiveAnimStackName" "KString" "" ""
            [FbxProp.pstr
              (if clipNames.headD "" = "" then "Anim_0" else clipNames.headD "")]]
         else []))
  FbxNode.mk "Document"
    [FbxProp.pbig (docId : ℤ), FbxProp.pstr "Document::Scene", FbxProp.pstr ""]
    [props, FbxNode.mk "RootNode" [FbxProp.pbig 0] []]

/-- One `ObjectType` entry of `_generateDefinitions`; `add(t, c)` emits
nothing when the count is zero. -/
def defEntry (t : String) (c : ℕ) : List (FbxNode ℚ) :=
  if c > 0 then
    [FbxNode.mk "ObjectType" [FbxProp.pstr t]
      [FbxNode.mk "Count" [FbxProp.pint32 (c : ℤ)] []]]
  else []

/-- `_generateDefinitions` (lines 988–1011). -/
def definitionsNode (modelCount geomCount matCount texCount vidCount skinCount
    animCount : ℕ) : FbxNode ℚ :=
  FbxNode.mk "Definitions" []
    ([FbxNode.mk "Version" [FbxProp.pnum 100] [],
      FbxNode.mk "Count" [FbxProp.pint32 7] []]
     ++ defEntry "GlobalSettings" 1
     ++ defEntry "Model" modelCount
     ++ defEntry "Geometry" geomCount
     ++ defEntry "Material" matCount
     ++ defEntry "Texture" texCount
     ++ defEntry "Video" vidCount
     ++ defEntry "Deformer" skinCount
     ++ defEntry "AnimationStack" animCount)

/-- One `C` connection node (`OO`, source id, destination id). -/
def connectionOO (src dst : ℕ) : FbxNode ℚ :=
  FbxNode.mk "C" [FbxProp.pstr "OO", FbxProp.pbig (src : ℤ), FbxProp.pbig (dst : ℤ)] []

/-- `parse` specialized to the minimal scene — a single visible root
`Object3D` named `Root` with identity transform (position `(0,0,0)`,
rotation `(0,0,0)` order `XYZ`, scale `(1,1,1)`), no children, default
options (`scale = 100`, no animations, no materials in play).  Collection
visits only the root, which is neither a mesh nor a bone, so it is pushed
as a `Null` model; no armature, textures, skins or clips exist.  The id
allocations `parse` performs on this input, in order: the root's model id
(line 598) and the document id (line 980).  Returns the produced byte
stream and the advanced module-level counter. -/
def parseMinimal (c0 : ℕ) : List ℕ × ℕ :=
  let p1 := generateId c0
  let mid := p1.1
  let objectsNode := FbxNode.mk "Objects" []
    [modelNode mid "Root" "Null" (0, 0, 0) (0, 0, 0) (1, 1, 1)
      (getRotationOrder "XYZ") 100 false]
  let p2 := generateId p1.2
  let docId := p2.1
  let docNode := documentNode docId [] []
  let definitions := definitionsNode (1 + 0) 0 0 0 0 0 0
  -- root connection: the root has no parent in the id registry, so its
  -- parent id stays 0; `if (!id) return` skips only a falsy (zero) id
  let connections := FbxNode.mk "Connections" []
    (if mid = 0 then [] else [connectionOO mid 0])
  let documentsNode := FbxNode.mk "Documents" []
    [FbxNode.mk "Count" [FbxProp.pnum 1] [], docNode]
  let rootNodes := [generateHeaderNode, generateGlobalSettingsNode, documentsNode,
    FbxNode.mk "References" [] [], definitions, objectsNode, connections]
  (parseFrame rootNodes, p2.2)

end FBX

namespace FBX

set_option maxRecDepth 100000 in
unseal Rat.mul Rat.add Rat.sub Rat.inv in
/-- C1 (counterexample): two consecutive runs of `parse` on the identical
minimal scene produce different byte buffers, because `generateId` reads
and writes the module-level `idCounter`: the second run starts from the
counter value the first run left behind, so the 64-bit ids embedded in the
output differ. -/
theorem claim_C1_counterexample :
    ¬ ((parseMinimal idCounterInit).1
        = (parseMinimal ((parseMinimal idCounterInit).2)).1) := by
  have h2 : (parseMinimal idCounterInit).2 = 1000002 := by decide
  rw [h2]
  simp only [parseMinimal, generateId, idCounterInit]
  rw [parseFrame_eq, parseFrame_eq]
  intro heq
  exact absurd (congrArg (fun l => (l.drop 1513).take 1) heq) (by decide)

set_option maxRecDepth 100000 in
unseal Rat.mul Rat.add Rat.sub Rat.inv in
/-- C1 (amended): the output of `parse` is a function of the input scene
and of the module-level id counter: every run on the minimal scene
advances the process-wide counter by exactly 2 (root model id and
document id), and a rerun from the advanced counter yields a different
byte buffer, the difference being exactly the embedded ids. -/
theorem claim_C1_amended :
    (∀ c : ℕ, (parseMinimal c).2 = c + 2)
    ∧ ¬ ((parseMinimal idCounterInit).1
          = (parseMinimal (idCounterInit + 2)).1) := by
  constructor
  · intro c
    rfl
  · simp only [parseMinimal, generateId, idCounterInit]
    rw [parseFrame_eq, parseFrame_eq]
    intro heq
    exact absurd (congrArg (fun l => (l.drop 1513).take 1) heq) (by decide)

end FBX

namespace FBX

/-! ## Geometry export: polygon-vertex indices (`_exportGeometry`, 1018–1019) -/

/-- Line 1019: `indices.map((i, idx) => (idx % 3 === 2 ? -(i + 1) : i))` —
negate-and-offset the last index of each triangle. -/
def exportIndices (indices : List ℤ) : List ℤ :=
  indices.enum.map (fun p => if p.1 % 3 = 2 then -(p.2 + 1) else p.2)

theorem exportIndices_length (indices : List ℤ) :
    (exportIndices indices).length = indices.length := by
  simp [exportIndices]

theorem exportIndices_getD (indices : List ℤ) (m : ℕ) (hm : m < indices.length) :
    (exportIndices indices).getD m 0 =
      if m % 3 = 2 then -(indices.getD m 0 + 1) else indices.getD m 0 := by
  have hm' : m < (exportIndices indices).length := by
    rw [exportIndices_length]; exact hm
  rw [List.getD_eq_getElem _ _ hm', List.getD_eq_getElem _ _ hm]
  simp [exportIndices]

/-- C7: For every exported geometry whose input index list has length a
multiple of 3 with all entries non-negative and less than the vertex
count, the emitted `PolygonVertexIndex` array satisfies: for every
triangle `k`, entries `3k` and `3k+1` equal the input indices and are
non-negative, entry `3k+2` equals `-(i+1)` for input index `i` and is
negative, and `-entry - 1` is a valid vertex index. -/
theorem claim_C7 (indices : List ℤ) (vc : ℕ)
    (h3 : indices.length % 3 = 0)
    (hb : ∀ x ∈ indices, 0 ≤ x ∧ x < vc)
    (k : ℕ) (hk : 3 * k + 2 < indices.length) :
    (exportIndices indices).length = indices.length
    ∧ (exportIndices indices).getD (3 * k) 0 = indices.getD (3 * k) 0
    ∧ 0 ≤ (exportIndices indices).getD (3 * k) 0
    ∧ (exportIndices indices).getD (3 * k + 1) 0 = indices.getD (3 * k + 1) 0
    ∧ 0 ≤ (exportIndices indices).getD (3 * k + 1) 0
    ∧ (exportIndices indices).getD (3 * k + 2) 0
        = -(indices.getD (3 * k + 2) 0 + 1)
    ∧ (exportIndices indices).getD (3 * k + 2) 0 < 0
    ∧ 0 ≤ -((exportIndices indices).getD (3 * k + 2) 0) - 1
    ∧ -((exportIndices indices).getD (3 * k + 2) 0) - 1 < vc := by
  have hmem : ∀ m (hm : m < indices.length), 0 ≤ indices.getD m 0 ∧ indices.getD m 0 < vc := by
    intro m hm
    rw [List.getD_eq_getElem _ _ hm]
    exact hb _ (List.getElem_mem hm)
  have h0 := hmem (3 * k) (by omega)
  have h1 := hmem (3 * k + 1) (by omega)
  have h2 := hmem (3 * k + 2) hk
  have e0 := exportIndices_getD indices (3 * k) (by omega)
  have e1 := exportIndices_getD indices (3 * k + 1) (by omega)
  have e2 := exportIndices_getD indices (3 * k + 2) hk
  rw [if_neg (by omega)] at e0
  rw [if_neg (by omega)] at e1
  rw [if_pos (by omega)] at e2
  refine ⟨exportIndices_length indices, e0, ?_, e1, ?_, e2, ?_, ?_, ?_⟩ <;>
    (first | (rw [e0]; omega) | (rw [e1]; omega) | (rw [e2]; omega))

/-- C7 witness: a concrete triangle `[0, 1, 2]` over 3 vertices. -/
theorem claim_C7_witness :
    ([0, 1, 2] : List ℤ).length % 3 = 0
    ∧ (∀ x ∈ ([0, 1, 2] : List ℤ), 0 ≤ x ∧ x < 3)
    ∧ (3 * 0 + 2 < ([0, 1, 2] : List ℤ).length)
    ∧ ((exportIndices [0, 1, 2]).length = ([0, 1, 2] : List ℤ).length
      ∧ (exportIndices [0, 1, 2]).getD (3 * 0) 0 = ([0, 1, 2] : List ℤ).getD (3 * 0) 0
      ∧ 0 ≤ (exportIndices [0, 1, 2]).getD (3 * 0) 0
      ∧ (exportIndices [0, 1, 2]).getD (3 * 0 + 1) 0
          = ([0, 1, 2] : List ℤ).getD (3 * 0 + 1) 0
      ∧ 0 ≤ (exportIndices [0, 1, 2]).getD (3 * 0 + 1) 0
      ∧ (exportIndices [0, 1, 2]).getD (3 * 0 + 2) 0
          = -(([0, 1, 2] : List ℤ).getD (3 * 0 + 2) 0 + 1)
      ∧ (exportIndices [0, 1, 2]).getD (3 * 0 + 2) 0 < 0
      ∧ 0 ≤ -((exportIndices [0, 1, 2]).getD (3 * 0 + 2) 0) - 1
      ∧ -((exportIndices [0, 1, 2]).getD (3 * 0 + 2) 0) - 1 < 3) :=
  ⟨by decide, by decide, by decide,
    claim_C7 [0, 1, 2] 3 (by decide) (by decide) 0 (by decide)⟩

end FBX

namespace FBX

/-! ## Texture name sanitization (`parse`, lines 745–747) -/

/-- The character class `[a-zA-Z0-9]` of the sanitizing regex. -/
def isAlnumJS (c : Char) : Bool :=
  ('a' ≤ c && c ≤ 'z') || ('A' ≤ c && c ≤ 'Z') || ('0' ≤ c && c ≤ '9')

/-- Line 745: `(tex.name || 'Texture').replace(/[^a-zA-Z0-9]/g, '_')` —
the empty name is falsy and falls back to `Texture`; every
non-alphanumeric character becomes `_`. -/
def sanitizeTexName (name : String) : String :=
  ⟨(if name = "" then "Texture" else name).data.map
    (fun c => if isAlnumJS c then c else '_')⟩

/-- Lines 746–747: the fallback `Texture_<uuid>` when the sanitized name is
empty, then `.png` appended. -/
def textureFileName (name uuid : String) : String :=
  let rawName := sanitizeTexName name
  let rawName2 := if rawName = "" then "Texture_" ++ uuid else rawName
  rawName2 ++ ".png"

/-- C10: for every embedded texture, whatever its name, the sanitized name
is non-empty, so the `Texture_<uuid>` fallback branch is unreachable and
the emitted filename is the sanitized name (every character alphanumeric
or `_`) followed by `.png`. -/
theorem claim_C10 (name uuid : String) :
    sanitizeTexName name ≠ ""
    ∧ textureFileName name uuid = sanitizeTexName name ++ ".png"
    ∧ (sanitizeTexName name).data.all (fun c => isAlnumJS c || c = '_') = true := by
  have hne : sanitizeTexName name ≠ "" := by
    intro h
    have hd := congrArg String.data h
    simp only [sanitizeTexName] at hd
    rw [List.map_eq_nil_iff] at hd
    by_cases hn : name = ""
    · rw [if_pos hn] at hd
      exact absurd hd (by decide)
    · rw [if_neg hn] at hd
      exact hn (by
        have : name.data = ([] : List Char) := hd
        cases name
        simp_all)
  refine ⟨hne, ?_, ?_⟩
  · simp only [textureFileName]
    rw [if_neg hne]
  · simp only [sanitizeTexName, List.all_map]
    rw [List.all_eq_true]
    intro c _
    by_cases hcal : isAlnumJS c
    · simp [hcal]
    · simp [hcal]

end FBX

namespace FBX

/-! ## Mixamo name normalization (`normalizeMixamoName`, lines 122–129) -/

/-- `/^mixamorig:/i` — case-insensitive literal prefix test. -/
def mixamoColonCI (cs : List Char) : Bool :=
  (cs.take 10).map Char.toLower = ("mixamorig:").data

/-- `/^mixamorig[A-Z]/` — case-sensitive `mixamorig` followed by an
uppercase ASCII letter. -/
def mixamoUpper (cs : List Char) : Bool :=
  cs.take 9 = ("mixamorig").data &&
    (match cs.get? 9 with
     | some c => 'A' ≤ c && c ≤ 'Z'
     | none => false)

/-- `normalizeMixamoName` (lines 122–129): keep falsy and already-colonized
names; rewrite `mixamorigX…` to `mixamorig:X…`; otherwise pass through. -/
def normalizeMixamoName (name : String) : String :=
  if name = "" then name
  else if mixamoColonCI name.data then name
  else if mixamoUpper name.data then ⟨("mixamorig:").data ++ name.data.drop 9⟩
  else name

example : normalizeMixamoName ("mixamorigHips") = "mixamorig:Hips" := by decide
example : normalizeMixamoName ("MixamoRig:Hips") = "MixamoRig:Hips" := by decide
example : normalizeMixamoName ("Spine") = "Spine" := by decide

/-! ## Cluster extraction (`_exportSkin`, lines 1145–1160)

The per-bone scan over the mesh's 4-slot-per-vertex skin attributes.
Weights are exact rationals: only the comparisons `=== index` and `> 0`
matter to the selection, and out-of-range reads (`undefined`) never
satisfy them, which `Option`-typed reads model exactly. -/

/-- The inner slot loop for one vertex `i` (lines 1149–1158): a (vertex,
weight) entry per slot whose bone index equals this bone's index with a
strictly positive weight. -/
def clusterSlots (skinIdx : List ℕ) (skinWt : List ℚ) (boneIndex i : ℕ) :
    List (ℕ × ℚ) :=
  (List.range 4).filterMap (fun j =>
    match skinIdx.get? (i * 4 + j), skinWt.get? (i * 4 + j) with
    | some bi, some w => if bi = boneIndex ∧ 0 < w then some (i, w) else none
    | _, _ => none)

/-- The vertex loop (line 1147): all entries of one cluster, in vertex
order; `Indexes` is the first projection, `Weights` the second. -/
def clusterPairs (skinIdx : List ℕ) (skinWt : List ℚ) (posCount boneIndex : ℕ) :
    List (ℕ × ℚ) :=
  ((List.range posCount).map (clusterSlots skinIdx skinWt boneIndex)).flatten

/-- Any entry produced for vertex `i` carries vertex `i`, a strictly
positive weight, and a weight read from the skin-weight array. -/
theorem mem_clusterSlots {skinIdx : List ℕ} {skinWt : List ℚ}
    {boneIndex i : ℕ} {p : ℕ × ℚ}
    (hp : p ∈ clusterSlots skinIdx skinWt boneIndex i) :
    p.1 = i ∧ 0 < p.2 ∧ p.2 ∈ skinWt := by
  simp only [clusterSlots, List.mem_filterMap] at hp
  obtain ⟨j, _, hf⟩ := hp
  cases hidx : skinIdx.get? (i * 4 + j) with
  | none => rw [hidx] at hf; simp at hf
  | some bi =>
    cases hwt : skinWt.get? (i * 4 + j) with
    | none => rw [hidx, hwt] at hf; simp at hf
    | some w =>
      rw [hidx, hwt] at hf
      have hf' : (if bi = boneIndex ∧ 0 < w then some (i, w) else none) = some p := hf
      by_cases hcond : bi = boneIndex ∧ 0 < w
      · rw [if_pos hcond] at hf'
        cases hf'
        exact ⟨rfl, hcond.2, List.get?_mem hwt⟩
      · rw [if_neg hcond] at hf'
        simp at hf'

end FBX

namespace FBX

/-- A list with at most one element has no duplicates. -/
theorem nodup_of_length_le_one {α : Type} {l : List α} (h : l.length ≤ 1) :
    l.Nodup := by
  match l with
  | [] => exact List.nodup_nil
  | [x] => exact List.nodup_singleton x
  | x :: y :: rest => simp at h

/-- Every vertex index recorded in vertex `i`'s slot scan is `i` itself. -/
theorem mem_map_fst_clusterSlots {skinIdx : List ℕ} {skinWt : List ℚ}
    {boneIndex i a : ℕ}
    (ha : a ∈ (clusterSlots skinIdx skinWt boneIndex i).map Prod.fst) : a = i := by
  rw [List.mem_map] at ha
  obtain ⟨p, hp, rfl⟩ := ha
  exact (mem_clusterSlots hp).1

unseal Rat.mul Rat.add Rat.sub Rat.inv in
/-- C2 (counterexample): with a 4-slot skin-index attribute in which the
same bone index (5) occupies two slots of vertex 0 with positive weights
(one of them 2 > 1), the emitted cluster has vertex 0 twice in `Indexes`
and a weight outside `(0, 1]` — refuting the no-duplicate and the
`(0, 1]` parts of the claim on exactly the inputs the claim includes. -/
theorem claim_C2_counterexample :
    ¬ ((((clusterPairs [5, 5, 0, 0] [2, 1/2, 0, 0] 1 5).map Prod.fst).Nodup)
       ∧ ∀ w ∈ (clusterPairs [5, 5, 0, 0] [2, 1/2, 0, 0] 1 5).map Prod.snd,
           0 < w ∧ w ≤ 1) := by
  decide

/-- C2 (amended): for every emitted cluster, `Indexes` and `Weights` have
equal length and every emitted weight is strictly positive; the emitted
weights lie in `(0, 1]` provided the input weights are at most 1; and no
vertex occurs twice provided each vertex's slots select this bone at most
once (which fails when the same bone index occupies two positive-weight
slots of one vertex). -/
theorem claim_C2_amended (skinIdx : List ℕ) (skinWt : List ℚ)
    (posCount boneIndex : ℕ) :
    ((clusterPairs skinIdx skinWt posCount boneIndex).map Prod.fst).length
      = ((clusterPairs skinIdx skinWt posCount boneIndex).map Prod.snd).length
    ∧ (∀ w ∈ (clusterPairs skinIdx skinWt posCount boneIndex).map Prod.snd, 0 < w)
    ∧ ((∀ w ∈ skinWt, w ≤ 1) →
        ∀ w ∈ (clusterPairs skinIdx skinWt posCount boneIndex).map Prod.snd, w ≤ 1)
    ∧ ((∀ i, i < posCount → (clusterSlots skinIdx skinWt boneIndex i).length ≤ 1) →
        ((clusterPairs skinIdx skinWt posCount boneIndex).map Prod.fst).Nodup) := by
  refine ⟨by simp, ?_, ?_, ?_⟩
  · intro w hw
    rw [List.mem_map] at hw
    obtain ⟨p, hp, rfl⟩ := hw
    rw [clusterPairs, List.mem_flatten] at hp
    obtain ⟨l, hl, hpl⟩ := hp
    rw [List.mem_map] at hl
    obtain ⟨i, _, rfl⟩ := hl
    exact (mem_clusterSlots hpl).2.1
  · intro hwb w hw
    rw [List.mem_map] at hw
    obtain ⟨p, hp, rfl⟩ := hw
    rw [clusterPairs, List.mem_flatten] at hp
    obtain ⟨l, hl, hpl⟩ := hp
    rw [List.mem_map] at hl
    obtain ⟨i, _, rfl⟩ := hl
    exact hwb _ (mem_clusterSlots hpl).2.2
  · intro hone
    rw [clusterPairs, List.map_flatten, List.nodup_flatten]
    constructor
    · intro l hl
      rw [List.mem_map] at hl
      obtain ⟨l2, hl2, rfl⟩ := hl
      rw [List.mem_map] at hl2
      obtain ⟨i, hi, rfl⟩ := hl2
      rw [List.mem_range] at hi
      exact nodup_of_length_le_one (by simpa using hone i hi)
    · rw [List.map_map, List.pairwise_map]
      apply (List.pairwise_lt_range posCount).imp
      intro i j hij
      rw [Function.comp_apply, Function.comp_apply, List.disjoint_left]
      intro a hai haj
      have h1 := mem_map_fst_clusterSlots hai
      have h2 := mem_map_fst_clusterSlots haj
      omega

end FBX

namespace FBX

unseal Rat.mul Rat.add Rat.sub Rat.inv in
/-- C2 (witness): the amended claim applied to a concrete well-formed
mesh — one vertex whose slots mention bone 0 once with weight 1/2 (a
second mention has weight 0 and is discarded). -/
theorem claim_C2_witness :
    (∀ w ∈ ([1/2, 1/2, 0, 0] : List ℚ), w ≤ 1)
    ∧ (∀ i, i < 1 → (clusterSlots [0, 1, 0, 0] [1/2, 1/2, 0, 0] 0 i).length ≤ 1)
    ∧ (∀ w ∈ (clusterPairs [0, 1, 0, 0] [1/2, 1/2, 0, 0] 1 0).map Prod.snd, w ≤ 1)
    ∧ ((clusterPairs [0, 1, 0, 0] [1/2, 1/2, 0, 0] 1 0).map Prod.fst).Nodup :=
  ⟨by decide, by decide,
    (claim_C2_amended [0, 1, 0, 0] [1/2, 1/2, 0, 0] 1 0).2.2.1 (by decide),
    (claim_C2_amended [0, 1, 0, 0] [1/2, 1/2, 0, 0] 1 0).2.2.2 (by decide)⟩

end FBX

namespace FBX

/-! ## Cluster transform matrices (`_exportSkin`, lines 1162–1180)

`THREE.Matrix4` stores its `elements` column-major; elements 12..14 are
the translation column (row 0..2 of column 3).  The external library's
`invert()` (absent from `src/`) is modelled from the spec as the matrix
inverse over the field — like the library, a singular matrix maps to the
zero matrix.  `premultiply(m)` is `this = m * this`. -/

/-- 4×4 matrices over exact rationals. -/
abbrev Mat4 := Matrix (Fin 4) (Fin 4) ℚ

/-- `m.elements` — the 16 entries in column-major order. -/
def elemsOf (m : Mat4) : List ℚ :=
  [m 0 0, m 1 0, m 2 0, m 3 0,
   m 0 1, m 1 1, m 2 1, m 3 1,
   m 0 2, m 1 2, m 2 2, m 3 2,
   m 0 3, m 1 3, m 2 3, m 3 3]

/-- `writeM` (lines 1166–1174): copy the elements and multiply entries
12, 13 and 14 by the output scale. -/
def writeMQ (scale : ℚ) (m : Mat4) : List ℚ :=
  (elemsOf m).enum.map
    (fun p => if p.1 = 12 ∨ p.1 = 13 ∨ p.1 = 14 then p.2 * scale else p.2)

/-- Lines 1162–1164:
`if (boneInverses && boneInverses.length > index)
   transformLink.copy(boneInverses[index]).invert().premultiply(meshBind);
 else transformLink.copy(bone.matrixWorld);`.
Modelled from the spec: `invert` is `⁻¹` (zero matrix when singular). -/
noncomputable def transformLinkOf (boneInverses : List Mat4) (index : ℕ)
    (meshBind boneWorld : Mat4) : Mat4 :=
  if index < boneInverses.length then meshBind * (boneInverses.getD index 1)⁻¹
  else boneWorld

/-- C6: For every skinned mesh and bone index, the cluster's
`TransformLink` equals `meshBind · inverse(boneInverses[index])` when the
skeleton provides a bind inverse at that index and the bone's current
world matrix otherwise; in both cases (and for `Transform`, which is the
mesh bind matrix) elements 12, 13, 14 of the emitted 16-element array are
the translation column multiplied by the output scale and all other
elements are unchanged.  When the provided bind inverse is invertible,
multiplying `TransformLink` by it on the right recovers the mesh bind
matrix. -/
theorem claim_C6 (boneInverses : List Mat4) (index : ℕ)
    (meshBind boneWorld : Mat4) (scale : ℚ) :
    (index < boneInverses.length →
      transformLinkOf boneInverses index meshBind boneWorld
        = meshBind * (boneInverses.getD index 1)⁻¹)
    ∧ (¬ index < boneInverses.length →
      transformLinkOf boneInverses index meshBind boneWorld = boneWorld)
    ∧ (index < boneInverses.length → IsUnit (boneInverses.getD index 1).det →
      transformLinkOf boneInverses index meshBind boneWorld
        * boneInverses.getD index 1 = meshBind)
    ∧ (∀ m : Mat4, writeMQ scale m =
        [m 0 0, m 1 0, m 2 0, m 3 0,
         m 0 1, m 1 1, m 2 1, m 3 1,
         m 0 2, m 1 2, m 2 2, m 3 2,
         m 0 3 * scale, m 1 3 * scale, m 2 3 * scale, m 3 3]) := by
  refine ⟨fun h => by rw [transformLinkOf, if_pos h],
    fun h => by rw [transformLinkOf, if_neg h], fun h hu => ?_, fun m => ?_⟩
  · rw [transformLinkOf, if_pos h, Matrix.mul_assoc,
      Matrix.nonsing_inv_mul _ hu, Matrix.mul_one]
  · rfl

unseal Rat.mul Rat.add Rat.sub Rat.inv in
/-- C6 (witness): the theorem applied to concrete matrices — one identity
bind inverse, identity mesh bind, scale 2. -/
theorem claim_C6_witness :
    ((0 : ℕ) < ([1] : List Mat4).length)
    ∧ IsUnit (([1] : List Mat4).getD 0 1).det
    ∧ transformLinkOf [1] 0 1 1 = 1 * (([1] : List Mat4).getD 0 1)⁻¹
    ∧ transformLinkOf [1] 0 1 1 * ([1] : List Mat4).getD 0 1 = 1
    ∧ writeMQ 2 (1 : Mat4) =
        [(1 : Mat4) 0 0, (1 : Mat4) 1 0, (1 : Mat4) 2 0, (1 : Mat4) 3 0,
         (1 : Mat4) 0 1, (1 : Mat4) 1 1, (1 : Mat4) 2 1, (1 : Mat4) 3 1,
         (1 : Mat4) 0 2, (1 : Mat4) 1 2, (1 : Mat4) 2 2, (1 : Mat4) 3 2,
         (1 : Mat4) 0 3 * 2, (1 : Mat4) 1 3 * 2, (1 : Mat4) 2 3 * 2,
         (1 : Mat4) 3 3] := by
  have hlt : (0 : ℕ) < ([1] : List Mat4).length := by simp
  have hu : IsUnit (([1] : List Mat4).getD 0 1).det := by simp
  exact ⟨hlt, hu, (claim_C6 [1] 0 1 1 2).1 hlt,
    (claim_C6 [1] 0 1 1 2).2.2.1 hlt hu, (claim_C6 [1] 0 1 1 2).2.2.2 1⟩

end FBX

namespace FBX

/-! ## Quaternion tracks: Euler conversion and unwinding
(`_exportAnimations`, lines 1281–1305)

The per-key conversion `new THREE.Euler().setFromQuaternion(q)` lives in
the external scene-math library, not in `src/`.  Modelled from the spec:
per-key quaternion → Euler conversion of order XYZ returning
principal-branch angles — the standard XYZ extraction from the rotation
matrix, with `atan2` as the complex argument (`arg ⟨x, y⟩ = atan2(y, x)`,
valued in `(-π, π]`) and the asin clamp of the library.  The unwinding
loop itself (lines 1291–1299) is translated directly. -/

/-- `Math.atan2(y, x)` as the complex argument. -/
noncomputable def atanTwo (y x : ℝ) : ℝ := Complex.arg ⟨x, y⟩

/-- Modelled from the spec: quaternion → Euler (order XYZ), principal
branch; the matrix entries are those of the library's
`makeRotationFromQuaternion`, and the XYZ extraction reads `asin` of the
clamped `m13` and two `atan2`s (degenerate branch when `|m13|` is within
`1e-7` of 1). -/
noncomputable def eulerXYZOfQuat (q : ℝ × ℝ × ℝ × ℝ) : ℝ × ℝ × ℝ :=
  let x := q.1
  let y := q.2.1
  let z := q.2.2.1
  let w := q.2.2.2
  let m11 := 1 - 2 * (y * y + z * z)
  let m12 := 2 * (x * y - w * z)
  let m13 := 2 * (x * z + w * y)
  let m22 := 1 - 2 * (x * x + z * z)
  let m23 := 2 * (y * z - w * x)
  let m32 := 2 * (y * z + w * x)
  let ey := Real.arcsin (max (-1) (min 1 m13))
  if |m13| < 0.9999999 then
    (atanTwo (-m23) (1 - 2 * (x * x + y * y)), ey, atanTwo (-m12) m11)
  else
    (atanTwo m32 m22, ey, 0)

/-- One axis of the unwinding step (lines 1293–1295):
`if (Math.abs(e - last) > Math.PI) e -= Math.sign(e - last) * 2 * Math.PI`. -/
noncomputable def unwindAxis (last e : ℝ) : ℝ :=
  if |e - last| > Real.pi then e - Real.sign (e - last) * (2 * Real.pi) else e

/-- The unwinding applied to the three axes against the previous unwound
key (`last.copy(e)` then runs after, so the carried value is unwound). -/
noncomputable def unwindTriple (last e : ℝ × ℝ × ℝ) : ℝ × ℝ × ℝ :=
  (unwindAxis last.1 e.1, unwindAxis last.2.1 e.2.1, unwindAxis last.2.2 e.2.2)

/-- The groups of 4 consecutive values the loop
`for (let k = 0; k < values.length; k += 4)` reads (a trailing incomplete
group would read `undefined` and is outside every claim's scope). -/
def chunk4 : List ℝ → List (ℝ × ℝ × ℝ × ℝ)
  | a :: b :: c :: d :: rest => (a, b, c, d) :: chunk4 rest
  | _ => []

/-- The stateful fold over keys: the first key is pushed as converted,
every later key is unwound against the previous unwound key. -/
noncomputable def unwindScan : (ℝ × ℝ × ℝ) → List (ℝ × ℝ × ℝ) → List (ℝ × ℝ × ℝ)
  | _, [] => []
  | last, e :: rest =>
    let u := unwindTriple last e
    u :: unwindScan u rest

/-- The emitted rotation keys of a quaternion track, in radians (the
source converts each pushed axis to degrees; the claim speaks about the
values before that conversion). -/
noncomputable def quatTrackEulersRad (values : List ℝ) : List (ℝ × ℝ × ℝ) :=
  match (chunk4 values).map eulerXYZOfQuat with
  | [] => []
  | e :: es => e :: unwindScan e es

/-- `THREE.MathUtils.radToDeg`. -/
noncomputable def radToDeg (r : ℝ) : ℝ := r * (180 / Real.pi)

/-- The flat degree list `eulers` the quaternion branch pushes
(line 1300). -/
noncomputable def quatTrackData (values : List ℝ) : List ℝ :=
  ((quatTrackEulersRad values).map
    (fun e => [radToDeg e.1, radToDeg e.2.1, radToDeg e.2.2])).flatten

/-- Each component of a converted key is in the principal range
`(-π, π]`. -/
theorem eulerXYZOfQuat_principal (q : ℝ × ℝ × ℝ × ℝ) :
    (eulerXYZOfQuat q).1 ∈ Set.Ioc (-Real.pi) Real.pi
    ∧ (eulerXYZOfQuat q).2.1 ∈ Set.Ioc (-Real.pi) Real.pi
    ∧ (eulerXYZOfQuat q).2.2 ∈ Set.Ioc (-Real.pi) Real.pi := by
  have hpi := Real.pi_pos
  have harc : ∀ v : ℝ, Real.arcsin v ∈ Set.Ioc (-Real.pi) Real.pi := by
    intro v
    have h1 := Real.neg_pi_div_two_le_arcsin v
    have h2 := Real.arcsin_le_pi_div_two v
    constructor <;> [linarith; linarith]
  have harg : ∀ y x : ℝ, atanTwo y x ∈ Set.Ioc (-Real.pi) Real.pi := by
    intro y x
    exact Complex.arg_mem_Ioc _
  rw [eulerXYZOfQuat]
  by_cases hb : |2 * (q.1 * q.2.2.1 + q.2.2.2 * q.2.1)| < 0.9999999
  · simp only [hb, if_true]
    exact ⟨harg _ _, harc _, harg _ _⟩
  · simp only [hb, if_false]
    exact ⟨harg _ _, harc _, ⟨by linarith, by linarith⟩⟩

/-- The single-correction unwinding step: from a carried value in
`(-3π, 3π]` and a principal-range input, the result stays in `(-3π, 3π]`
and moves by strictly less than `2π`. -/
theorem unwindAxis_bound {last e : ℝ}
    (hlast : last ∈ Set.Ioc (-(3 * Real.pi)) (3 * Real.pi))
    (he : e ∈ Set.Ioc (-Real.pi) Real.pi) :
    unwindAxis last e ∈ Set.Ioc (-(3 * Real.pi)) (3 * Real.pi)
    ∧ |unwindAxis last e - last| < 2 * Real.pi := by
  have hpi := Real.pi_pos
  obtain ⟨hl1, hl2⟩ := hlast
  obtain ⟨he1, he2⟩ := he
  rw [unwindAxis]
  by_cases h : |e - last| > Real.pi
  · rw [if_pos h]
    rcases lt_abs.mp h with hd | hd
    · -- e - last > π, sign is 1, correction subtracts 2π
      rw [Real.sign_of_pos (by linarith)]
      refine ⟨⟨by linarith, by linarith⟩, ?_⟩
      rw [abs_lt]
      constructor <;> [linarith; linarith]
    · -- e - last < -π, sign is -1, correction adds 2π
      rw [Real.sign_of_neg (by linarith)]
      refine ⟨⟨by linarith, by linarith⟩, ?_⟩
      rw [abs_lt]
      constructor <;> [linarith; linarith]
  · rw [if_neg h]
    rw [not_lt] at h
    have habs := abs_le.mp h
    refine ⟨⟨by linarith, by linarith⟩, ?_⟩
    rw [abs_lt]
    constructor <;> [linarith; linarith]

end FBX

namespace FBX

/-- All three components lie in `(-3π, 3π]`. -/
def inWide (t : ℝ × ℝ × ℝ) : Prop :=
  t.1 ∈ Set.Ioc (-(3 * Real.pi)) (3 * Real.pi)
  ∧ t.2.1 ∈ Set.Ioc (-(3 * Real.pi)) (3 * Real.pi)
  ∧ t.2.2 ∈ Set.Ioc (-(3 * Real.pi)) (3 * Real.pi)

/-- All three components lie in the principal range `(-π, π]`. -/
def inPrincipal (t : ℝ × ℝ × ℝ) : Prop :=
  t.1 ∈ Set.Ioc (-Real.pi) Real.pi
  ∧ t.2.1 ∈ Set.Ioc (-Real.pi) Real.pi
  ∧ t.2.2 ∈ Set.Ioc (-Real.pi) Real.pi

/-- Successive emitted keys differ by strictly less than `2π` on every
axis. -/
def closeKeys (u v : ℝ × ℝ × ℝ) : Prop :=
  |v.1 - u.1| < 2 * Real.pi ∧ |v.2.1 - u.2.1| < 2 * Real.pi
  ∧ |v.2.2 - u.2.2| < 2 * Real.pi

theorem inPrincipal.wide {t : ℝ × ℝ × ℝ} (h : inPrincipal t) : inWide t := by
  have hpi := Real.pi_pos
  obtain ⟨⟨a1, a2⟩, ⟨b1, b2⟩, ⟨c1, c2⟩⟩ := h
  exact ⟨⟨by linarith, by linarith⟩, ⟨by linarith, by linarith⟩,
    ⟨by linarith, by linarith⟩⟩

theorem unwindTriple_bound {last e : ℝ × ℝ × ℝ}
    (hlast : inWide last) (he : inPrincipal e) :
    inWide (unwindTriple last e) ∧ closeKeys last (unwindTriple last e) := by
  obtain ⟨h1, h2, h3⟩ := hlast
  obtain ⟨g1, g2, g3⟩ := he
  obtain ⟨i1, d1⟩ := unwindAxis_bound h1 g1
  obtain ⟨i2, d2⟩ := unwindAxis_bound h2 g2
  obtain ⟨i3, d3⟩ := unwindAxis_bound h3 g3
  exact ⟨⟨i1, i2, i3⟩, d1, d2, d3⟩

theorem unwindScan_chain (l : List (ℝ × ℝ × ℝ)) (last : ℝ × ℝ × ℝ)
    (hlast : inWide last) (hl : ∀ e ∈ l, inPrincipal e) :
    List.Chain' closeKeys (last :: unwindScan last l) := by
  induction l generalizing last with
  | nil => simp [unwindScan]
  | cons e rest ih =>
    rw [unwindScan]
    obtain ⟨hw, hck⟩ := unwindTriple_bound hlast (hl e (by simp))
    rw [List.chain'_cons]
    exact ⟨hck, ih (unwindTriple last e) hw (fun x hx => hl x (by simp [hx]))⟩

/-- C3 (amended): for every input value sequence, the emitted rotation
keys are produced by per-key quaternion-to-Euler conversion (order XYZ,
principal branch) followed by the stated single-correction unwinding
carrying the previous unwound key — and every pair of successive emitted
keys differs by strictly less than `2π` on each axis (before the
conversion to degrees).  The original `π` bound does not survive the
single correction once the carried key has drifted past `2π`. -/
theorem claim_C3_amended (values : List ℝ) :
    List.Chain' closeKeys (quatTrackEulersRad values) := by
  rw [quatTrackEulersRad]
  cases hc : (chunk4 values).map eulerXYZOfQuat with
  | nil => simp
  | cons e es =>
    have he : inPrincipal e := by
      have : e ∈ (chunk4 values).map eulerXYZOfQuat := by rw [hc]; simp
      rw [List.mem_map] at this
      obtain ⟨q, _, rfl⟩ := this
      exact eulerXYZOfQuat_principal q
    have hes : ∀ x ∈ es, inPrincipal x := by
      intro x hx
      have : x ∈ (chunk4 values).map eulerXYZOfQuat := by rw [hc]; simp [hx]
      rw [List.mem_map] at this
      obtain ⟨q, _, rfl⟩ := this
      exact eulerXYZOfQuat_principal q
    exact unwindScan_chain es e he.wide hes

end FBX

namespace FBX

/-- The counterexample quaternion track: six unit quaternions, all
rotations about the z axis by `π, -π/2, 0, π/2, π, -π/2` (as the flat
4-per-key value list the track carries). -/
noncomputable def cexVals : List ℝ :=
  [0, 0, 1, 0,
   0, 0, -(Real.sqrt 2 / 2), Real.sqrt 2 / 2,
   0, 0, 0, 1,
   0, 0, Real.sqrt 2 / 2, Real.sqrt 2 / 2,
   0, 0, 1, 0,
   0, 0, -(Real.sqrt 2 / 2), Real.sqrt 2 / 2]

theorem atanTwo_zero_one : atanTwo 0 1 = 0 := by
  rw [atanTwo]
  have : (⟨1, 0⟩ : ℂ) = 1 := by apply Complex.ext <;> simp
  rw [this, Complex.arg_one]

theorem atanTwo_zero_negone : atanTwo 0 (-1) = Real.pi := by
  rw [atanTwo]
  have : (⟨-1, 0⟩ : ℂ) = -1 := by apply Complex.ext <;> simp
  rw [this, Complex.arg_neg_one]

theorem atanTwo_one_zero : atanTwo 1 0 = Real.pi / 2 := by
  rw [atanTwo]
  have : (⟨0, 1⟩ : ℂ) = Complex.I := by apply Complex.ext <;> simp
  rw [this, Complex.arg_I]

theorem atanTwo_negone_zero : atanTwo (-1) 0 = -(Real.pi / 2) := by
  rw [atanTwo]
  have : (⟨0, -1⟩ : ℂ) = -Complex.I := by apply Complex.ext <;> simp
  rw [this, Complex.arg_neg_I]

/-- Conversion of a pure-z-rotation quaternion: Euler `(0, 0, atan2(2wz, 1-2z²))`. -/
theorem euler_pure_z (z w : ℝ) :
    eulerXYZOfQuat (0, 0, z, w)
      = (0, 0, atanTwo (2 * w * z) (1 - 2 * (z * z))) := by
  rw [eulerXYZOfQuat]
  norm_num [atanTwo_zero_one, Real.arcsin_zero]
  congr 1
  ring

theorem euler_quat_id : eulerXYZOfQuat (0, 0, 0, 1) = (0, 0, 0) := by
  rw [euler_pure_z]
  norm_num [atanTwo_zero_one]

theorem euler_quat_pi : eulerXYZOfQuat (0, 0, 1, 0) = (0, 0, Real.pi) := by
  rw [euler_pure_z]
  norm_num [atanTwo_zero_negone]

theorem euler_quat_half :
    eulerXYZOfQuat (0, 0, Real.sqrt 2 / 2, Real.sqrt 2 / 2)
      = (0, 0, Real.pi / 2) := by
  rw [euler_pure_z]
  have h2 : Real.sqrt 2 * Real.sqrt 2 = 2 := Real.mul_self_sqrt (by norm_num)
  have ha : 2 * (Real.sqrt 2 / 2) * (Real.sqrt 2 / 2) = 1 := by
    field_simp
    try linarith [h2]
  have hb : 1 - 2 * (Real.sqrt 2 / 2 * (Real.sqrt 2 / 2)) = 0 := by
    field_simp
    try linarith [h2]
  rw [ha, hb, atanTwo_one_zero]

theorem euler_quat_neghalf :
    eulerXYZOfQuat (0, 0, -(Real.sqrt 2 / 2), Real.sqrt 2 / 2)
      = (0, 0, -(Real.pi / 2)) := by
  rw [euler_pure_z]
  have h2 : Real.sqrt 2 * Real.sqrt 2 = 2 := Real.mul_self_sqrt (by norm_num)
  have ha : 2 * (Real.sqrt 2 / 2) * -(Real.sqrt 2 / 2) = -1 := by
    field_simp
    try linarith [h2]
  have hb : 1 - 2 * (-(Real.sqrt 2 / 2) * -(Real.sqrt 2 / 2)) = 0 := by
    field_simp
    try linarith [h2]
  rw [ha, hb, atanTwo_negone_zero]

theorem unwindAxis_zero : unwindAxis 0 0 = 0 := by
  have hpi := Real.pi_pos
  rw [unwindAxis, if_neg]
  simp
  linarith

/-- When the raw difference has fallen below `-π`, the single correction
adds `2π`. -/
theorem unwindAxis_wrap (last e : ℝ) (h : e - last < -Real.pi) :
    unwindAxis last e = e + 2 * Real.pi := by
  have hpi := Real.pi_pos
  have hlt : e - last < 0 := by linarith
  rw [unwindAxis, if_pos (by rw [abs_of_neg hlt]; linarith), Real.sign_of_neg hlt]
  ring

end FBX

namespace FBX

/-- C3 (counterexample): six explicit unit quaternions (all rotations
about z, angles `π, -π/2, 0, π/2, π, -π/2`) for which the pipeline emits
keys whose fifth and sixth z components are `3π` and `3π/2`: a successive
pair differing by `3π/2 > π` on the z axis, refuting the claimed
strictly-less-than-π bound. -/
theorem claim_C3_counterexample :
    (∀ q ∈ chunk4 cexVals,
      q.1 ^ 2 + q.2.1 ^ 2 + q.2.2.1 ^ 2 + q.2.2.2 ^ 2 = 1)
    ∧ quatTrackEulersRad cexVals =
        [(0, 0, Real.pi), (0, 0, 3 * Real.pi / 2), (0, 0, 2 * Real.pi),
         (0, 0, 5 * Real.pi / 2), (0, 0, 3 * Real.pi), (0, 0, 3 * Real.pi / 2)]
    ∧ ¬ List.Chain' (fun u v : ℝ × ℝ × ℝ => |v.2.2 - u.2.2| < Real.pi)
        (quatTrackEulersRad cexVals) := by
  have hpi := Real.pi_pos
  have h2 : Real.sqrt 2 * Real.sqrt 2 = 2 := Real.mul_self_sqrt (by norm_num)
  have hchunk : chunk4 cexVals =
      [(0, 0, 1, 0),
       (0, 0, -(Real.sqrt 2 / 2), Real.sqrt 2 / 2),
       (0, 0, 0, 1),
       (0, 0, Real.sqrt 2 / 2, Real.sqrt 2 / 2),
       (0, 0, 1, 0),
       (0, 0, -(Real.sqrt 2 / 2), Real.sqrt 2 / 2)] := by
    rw [cexVals]
    rfl
  have hmap : (chunk4 cexVals).map eulerXYZOfQuat =
      [(0, 0, Real.pi), (0, 0, -(Real.pi / 2)), (0, 0, 0),
       (0, 0, Real.pi / 2), (0, 0, Real.pi), (0, 0, -(Real.pi / 2))] := by
    rw [hchunk]
    simp [euler_quat_pi, euler_quat_neghalf, euler_quat_id, euler_quat_half]
  have s2 : unwindTriple (0, 0, Real.pi) (0, 0, -(Real.pi / 2))
      = (0, 0, 3 * Real.pi / 2) := by
    rw [unwindTriple]
    simp only [unwindAxis_zero, unwindAxis_wrap Real.pi (-(Real.pi / 2)) (by linarith)]
    rw [Prod.mk.injEq, Prod.mk.injEq]
    refine ⟨rfl, rfl, by ring⟩
  have s3 : unwindTriple (0, 0, 3 * Real.pi / 2) (0, 0, 0)
      = (0, 0, 2 * Real.pi) := by
    rw [unwindTriple]
    simp only [unwindAxis_zero, unwindAxis_wrap (3 * Real.pi / 2) 0 (by linarith)]
    rw [Prod.mk.injEq, Prod.mk.injEq]
    refine ⟨rfl, rfl, by ring⟩
  have s4 : unwindTriple (0, 0, 2 * Real.pi) (0, 0, Real.pi / 2)
      = (0, 0, 5 * Real.pi / 2) := by
    rw [unwindTriple]
    simp only [unwindAxis_zero, unwindAxis_wrap (2 * Real.pi) (Real.pi / 2) (by linarith)]
    rw [Prod.mk.injEq, Prod.mk.injEq]
    refine ⟨rfl, rfl, by ring⟩
  have s5 : unwindTriple (0, 0, 5 * Real.pi / 2) (0, 0, Real.pi)
      = (0, 0, 3 * Real.pi) := by
    rw [unwindTriple]
    simp only [unwindAxis_zero, unwindAxis_wrap (5 * Real.pi / 2) Real.pi (by linarith)]
    rw [Prod.mk.injEq, Prod.mk.injEq]
    refine ⟨rfl, rfl, by ring⟩
  have s6 : unwindTriple (0, 0, 3 * Real.pi) (0, 0, -(Real.pi / 2))
      = (0, 0, 3 * Real.pi / 2) := by
    rw [unwindTriple]
    simp only [unwindAxis_zero, unwindAxis_wrap (3 * Real.pi) (-(Real.pi / 2)) (by linarith)]
    rw [Prod.mk.injEq, Prod.mk.injEq]
    refine ⟨rfl, rfl, by ring⟩
  have hout : quatTrackEulersRad cexVals =
      [(0, 0, Real.pi), (0, 0, 3 * Real.pi / 2), (0, 0, 2 * Real.pi),
       (0, 0, 5 * Real.pi / 2), (0, 0, 3 * Real.pi), (0, 0, 3 * Real.pi / 2)] := by
    rw [quatTrackEulersRad, hmap]
    simp only [unwindScan, s2, s3, s4, s5, s6]
  refine ⟨?_, hout, ?_⟩
  · intro q hq
    rw [hchunk] at hq
    simp only [List.mem_cons, List.not_mem_nil, or_false] at hq
    rcases hq with rfl | rfl | rfl | rfl | rfl | rfl <;> simp <;> nlinarith [h2]
  · rw [hout]
    simp only [List.chain'_cons, List.chain'_singleton, and_true]
    rintro ⟨-, -, -, -, habs⟩
    rw [abs_lt] at habs
    obtain ⟨ha, -⟩ := habs
    linarith

end FBX

namespace FBX

/-! ## Animation tracks (`_exportAnimations`, lines 1259–1344) -/

/-- An animation track: a `"<bone>.<property>"` name and parallel
times/values arrays. -/
structure AnimTrack where
  name : String
  times : List ℚ
  values : List ℝ

/-- `String.prototype.split('.')`: split at every dot; `''` yields
`['']`. -/
def splitDot : List Char → List (List Char)
  | [] => [[]]
  | c :: rest =>
    if c = '.' then [] :: splitDot rest
    else
      match splitDot rest with
      | r :: rs => (c :: r) :: rs
      | [] => [[c]]

example : splitDot ("a.b").data = [("a").data, ("b").data] := by decide
example : splitDot ("").data = [("").data] := by decide

/-- `const [boneName, prop] = track.name.split('.')` — the first part
(always present). -/
def trackBoneName (track : AnimTrack) : String :=
  ⟨(splitDot track.name.data).headD []⟩

/-- The second part of the split name, when present. -/
def trackPropPart (track : AnimTrack) : Option String :=
  ((splitDot track.name.data).get? 1).map (fun l => (⟨l⟩ : String))

/-- Line 1262: resolve the bone against the collected bone set by
Mixamo-normalized name (first match in insertion order). -/
def resolveBone (boneIds : List (String × ℕ)) (boneName : String) :
    Option (String × ℕ) :=
  boneIds.find? (fun p => normalizeMixamoName p.1 = normalizeMixamoName boneName)

/-- `KTIME_ONE_SEC`. -/
def KTIME : ℚ := 46186158000

/-- `Math.round` (half-up, toward +∞ on ties). -/
def jsRound (q : ℚ) : ℤ := (q + 1 / 2).floor

/-- `data.filter((_, i) => i % 3 === axIdx)` — one axis of the flat
X/Y/Z-interleaved data. -/
noncomputable def filterAxis (data : List ℝ) (ax : ℕ) : List ℝ :=
  (data.enum.filter (fun p => p.1 % 3 = ax)).map Prod.snd

/-- The emission for a single track (lines 1259–1343): resolve the bone
(no id is consumed when that fails), allocate the curve-node id, convert
the data per property kind (unknown kinds return after the id
allocation), and otherwise build the `AnimationCurveNode`, the three
`AnimationCurve`s and the five connections.  Returns the pushed
`animNodes`, the pushed `animConnections` and the advanced counter. -/
noncomputable def trackEmit (boneIds : List (String × ℕ)) (layerId : ℕ)
    (scale : ℝ) (c : ℕ) (track : AnimTrack) :
    List (FbxNode ℝ) × List (FbxNode ℝ) × ℕ :=
  match resolveBone boneIds (trackBoneName track) with
  | none => ([], [], c)
  | some bp =>
    let boneId := bp.2
    let curveNodeId := c
    let c1 := c + 1
    let times := track.times.map (fun t => jsRound (t * KTIME))
    let keyData : Option (String × String × List ℝ) :=
      if trackPropPart track = some "position" then
        some ("T", "Lcl Translation", track.values.map (fun v => v * scale))
      else if trackPropPart track = some "scale" then
        some ("S", "Lcl Scaling", track.values)
      else if trackPropPart track = some "quaternion" then
        some ("R", "Lcl Rotation", quatTrackData track.values)
      else none
    match keyData with
    | none => ([], [], c1)
    | some kd =>
      let keyAttr := kd.1
      let opName := kd.2.1
      let data := kd.2.2
      let curveNode := FbxNode.mk "AnimationCurveNode"
        [FbxProp.pbig (curveNodeId : ℤ), FbxProp.pstr (nameWithKlass keyAttr "AnimCurveNode"),
         FbxProp.pstr ""]
        [FbxNode.mk "Properties70" []
          [createP "d" "Compound" "" "" [],
           createP "d|X" "Number" "" "A" [FbxProp.pdouble (data.getD 0 0)],
           createP "d|Y" "Number" "" "A" [FbxProp.pdouble (data.getD 1 0)],
           createP "d|Z" "Number" "" "A" [FbxProp.pdouble (data.getD 2 0)]]]
      let axisCurve := fun (axIdx : ℕ) (_axis : String) =>
        FbxNode.mk "AnimationCurve"
          [FbxProp.pbig ((c1 + axIdx : ℕ) : ℤ), FbxProp.pstr (nameWithKlass "" "AnimCurve"),
           FbxProp.pstr ""]
          [FbxNode.mk "KeyTime" [FbxProp.parrL times] [],
           FbxNode.mk "KeyValueFloat" [FbxProp.parrF (filterAxis data axIdx)] [],
           FbxNode.mk "KeyAttrFlags"
             [FbxProp.parrNum (List.replicate times.length (256 : ℝ))] [],
           FbxNode.mk "KeyAttrDataFloat"
             [FbxProp.parrF (List.replicate (times.length * 4) (0 : ℝ))] [],
           FbxNode.mk "KeyAttrRefCount"
             [FbxProp.parrNum (List.replicate times.length (1 : ℝ))] []]
      let axisConn := fun (axIdx : ℕ) (axis : String) =>
        FbxNode.mk "C"
          [FbxProp.pstr "OP", FbxProp.pbig ((c1 + axIdx : ℕ) : ℤ),
           FbxProp.pbig (curveNodeId : ℤ), FbxProp.pstr axis]
          []
      ([curveNode, axisCurve 0 "d|X", axisCurve 1 "d|Y", axisCurve 2 "d|Z"],
       [FbxNode.mk "C"
          [FbxProp.pstr "OO", FbxProp.pbig (curveNodeId : ℤ), FbxProp.pbig (layerId : ℤ)] [],
        FbxNode.mk "C"
          [FbxProp.pstr "OP", FbxProp.pbig (curveNodeId : ℤ), FbxProp.pbig (boneId : ℤ),
           FbxProp.pstr opName] [],
        axisConn 0 "d|X", axisConn 1 "d|Y", axisConn 2 "d|Z"],
       c1 + 3)

/-- The `clip.tracks.forEach` loop: accumulate pushed nodes and
connections over the tracks in order, threading the id counter. -/
noncomputable def exportTracks (boneIds : List (String × ℕ)) (layerId : ℕ)
    (scale : ℝ) : ℕ → List AnimTrack → List (FbxNode ℝ) × List (FbxNode ℝ) × ℕ
  | c, [] => ([], [], c)
  | c, t :: ts =>
    let r := trackEmit boneIds layerId scale c t
    let rest := exportTracks boneIds layerId scale r.2.2 ts
    (r.1 ++ rest.1, r.2.1 ++ rest.2.1, rest.2.2)

/-- Processing a concatenation of track lists concatenates the outputs,
threading the counter through the first part. -/
theorem exportTracks_append (boneIds : List (String × ℕ)) (layerId : ℕ)
    (scale : ℝ) (xs ys : List AnimTrack) (c : ℕ) :
    exportTracks boneIds layerId scale c (xs ++ ys)
      = ((exportTracks boneIds layerId scale c xs).1
           ++ (exportTracks boneIds layerId scale
                (exportTracks boneIds layerId scale c xs).2.2 ys).1,
         (exportTracks boneIds layerId scale c xs).2.1
           ++ (exportTracks boneIds layerId scale
                (exportTracks boneIds layerId scale c xs).2.2 ys).2.1,
         (exportTracks boneIds layerId scale
           (exportTracks boneIds layerId scale c xs).2.2 ys).2.2) := by
  induction xs generalizing c with
  | nil => simp [exportTracks]
  | cons t ts ih =>
    simp only [List.cons_append, exportTracks]
    rw [show ts.append ys = ts ++ ys from rfl, ih]
    simp [List.append_assoc]

end FBX

namespace FBX

/-- C9: a track whose property part is outside
`{position, scale, quaternion}`, or whose bone part does not resolve
(after Mixamo normalization of both sides) to any collected bone, emits
no `AnimationCurveNode`, no `AnimationCurve` and no connections; the
emission is total (never fails), and the rest of the clip's tracks are
still processed and emitted exactly as the fold prescribes, before and
after the skipped track. -/
theorem claim_C9 (boneIds : List (String × ℕ)) (layerId : ℕ) (scale : ℝ)
    (c : ℕ) (track : AnimTrack) (pre post : List AnimTrack)
    (hskip : resolveBone boneIds (trackBoneName track) = none
      ∨ (trackPropPart track ≠ some "position" ∧ trackPropPart track ≠ some "scale"
          ∧ trackPropPart track ≠ some "quaternion")) :
    (trackEmit boneIds layerId scale c track).1 = []
    ∧ (trackEmit boneIds layerId scale c track).2.1 = []
    ∧ exportTracks boneIds layerId scale c (pre ++ track :: post)
        = ((exportTracks boneIds layerId scale c pre).1
             ++ (exportTracks boneIds layerId scale
                  (trackEmit boneIds layerId scale
                    (exportTracks boneIds layerId scale c pre).2.2 track).2.2 post).1,
           (exportTracks boneIds layerId scale c pre).2.1
             ++ (exportTracks boneIds layerId scale
                  (trackEmit boneIds layerId scale
                    (exportTracks boneIds layerId scale c pre).2.2 track).2.2 post).2.1,
           (exportTracks boneIds layerId scale
             (trackEmit boneIds layerId scale
               (exportTracks boneIds layerId scale c pre).2.2 track).2.2 post).2.2) := by
  have hskip' : ∀ c' : ℕ, trackEmit boneIds layerId scale c' track
      = ([], [], (trackEmit boneIds layerId scale c' track).2.2) := by
    intro c'
    rcases hskip with hnone | ⟨hp1, hp2, hp3⟩
    · rw [trackEmit, hnone]
    · cases hres : resolveBone boneIds (trackBoneName track) with
      | none => rw [trackEmit, hres]
      | some bp =>
        rw [trackEmit, hres]
        simp only [if_neg hp1, if_neg hp2, if_neg hp3]
  refine ⟨?_, ?_, ?_⟩
  · rw [hskip' c]
  · rw [hskip' c]
  · rw [exportTracks_append]
    have hstep : ∀ c' : ℕ, exportTracks boneIds layerId scale c' (track :: post)
        = exportTracks boneIds layerId scale
            (trackEmit boneIds layerId scale c' track).2.2 post := by
      intro c'
      simp only [exportTracks]
      rw [hskip' c']
      simp
    rw [hstep]

end FBX

namespace FBX

/-- C9 (witness): a concrete clip with one track, named
`Hips.badprop` against a bone set containing `Hips` — the property part is
unknown, so nothing is emitted for it. -/
theorem claim_C9_witness :
    (trackPropPart ⟨"Hips.badprop", [], []⟩ ≠ some "position"
      ∧ trackPropPart ⟨"Hips.badprop", [], []⟩ ≠ some "scale"
      ∧ trackPropPart ⟨"Hips.badprop", [], []⟩ ≠ some "quaternion")
    ∧ ((trackEmit [("Hips", 7)] 1 (1 : ℝ) 5 ⟨"Hips.badprop", [], []⟩).1 = []
      ∧ (trackEmit [("Hips", 7)] 1 (1 : ℝ) 5 ⟨"Hips.badprop", [], []⟩).2.1 = []
      ∧ exportTracks [("Hips", 7)] 1 (1 : ℝ) 5 ([] ++ ⟨"Hips.badprop", [], []⟩ :: [])
          = ((exportTracks [("Hips", 7)] 1 (1 : ℝ) 5 []).1
               ++ (exportTracks [("Hips", 7)] 1 (1 : ℝ)
                    (trackEmit [("Hips", 7)] 1 (1 : ℝ)
                      (exportTracks [("Hips", 7)] 1 (1 : ℝ) 5 []).2.2
                      ⟨"Hips.badprop", [], []⟩).2.2 []).1,
             (exportTracks [("Hips", 7)] 1 (1 : ℝ) 5 []).2.1
               ++ (exportTracks [("Hips", 7)] 1 (1 : ℝ)
                    (trackEmit [("Hips", 7)] 1 (1 : ℝ)
                      (exportTracks [("Hips", 7)] 1 (1 : ℝ) 5 []).2.2
                      ⟨"Hips.badprop", [], []⟩).2.2 []).2.1,
             (exportTracks [("Hips", 7)] 1 (1 : ℝ)
               (trackEmit [("Hips", 7)] 1 (1 : ℝ)
                 (exportTracks [("Hips", 7)] 1 (1 : ℝ) 5 []).2.2
                 ⟨"Hips.badprop", [], []⟩).2.2 []).2.2)) :=
  ⟨⟨by decide, by decide, by decide⟩,
   claim_C9 [("Hips", 7)] 1 (1 : ℝ) 5 ⟨"Hips.badprop", [], []⟩ [] []
     (Or.inr ⟨by decide, by decide, by decide⟩)⟩

end FBX
